import Mathlib

/-!
Verification of the core components of the mapbox-tileset-uploader
repository: the TopoJSON topology decoder
(`src/mtu/converters/topojson.py`) and the GeoJSON geometry validator
(`src/mapbox_tileset_uploader/validators.py`).

The Python code is dynamically typed and operates on JSON-like values, so
the embedding works over an inductive `Json` type together with a small
library of helpers that mirror the semantics of the Python operations the
source uses (`dict.get`, `len`, truthiness, indexing, iteration, equality,
numeric comparison).  Where Python raises an exception, the embedding
returns `Except.error` carrying a `PyErr` that records the exception class
and message.  JSON numbers are modelled as rationals: the claims under
study concern control flow, exact (de)quantisation arithmetic and
sign-of-area tests, none of which depend on binary floating-point
rounding.
-/

namespace MTU

/-- JSON-like values as passed around by the Python code.  Numbers are
modelled as rationals (`ℚ`); objects as ordered association lists, which
matches insertion-ordered Python dicts. -/
inductive Json where
  | null : Json
  | bool (b : Bool) : Json
  | num (q : ℚ) : Json
  | str (s : String) : Json
  | arr (elems : List Json) : Json
  | obj (kvs : List (String × Json)) : Json

mutual

/-- Structural equality on JSON values. -/
def Json.beq : Json → Json → Bool
  | .null, .null => true
  | .bool a, .bool b => a == b
  | .num a, .num b => a == b
  | .str a, .str b => a == b
  | .arr xs, .arr ys => Json.beqList xs ys
  | .obj xs, .obj ys => Json.beqObj xs ys
  | _, _ => false

/-- Elementwise equality on JSON arrays. -/
def Json.beqList : List Json → List Json → Bool
  | [], [] => true
  | x :: xs, y :: ys => Json.beq x y && Json.beqList xs ys
  | _, _ => false

/-- Entrywise equality on JSON objects. -/
def Json.beqObj : List (String × Json) → List (String × Json) → Bool
  | [], [] => true
  | (k, v) :: xs, (k2, v2) :: ys => k == k2 && Json.beq v v2 && Json.beqObj xs ys
  | _, _ => false

end

mutual

theorem Json.beq_refl : ∀ a : Json, Json.beq a a = true
  | .null => rfl
  | .bool a => by simp [Json.beq]
  | .num a => by simp [Json.beq]
  | .str a => by simp [Json.beq]
  | .arr xs => by simp [Json.beq, Json.beqList_refl xs]
  | .obj xs => by simp [Json.beq, Json.beqObj_refl xs]

theorem Json.beqList_refl : ∀ xs : List Json, Json.beqList xs xs = true
  | [] => rfl
  | x :: xs => by simp [Json.beqList, Json.beq_refl x, Json.beqList_refl xs]

theorem Json.beqObj_refl : ∀ xs : List (String × Json), Json.beqObj xs xs = true
  | [] => rfl
  | (k, v) :: xs => by simp [Json.beqObj, Json.beq_refl v, Json.beqObj_refl xs]

end

mutual

theorem Json.eq_of_beq : ∀ a b : Json, Json.beq a b = true → a = b
  | .null, .null, _ => rfl
  | .bool a, .bool b, h => by simp [Json.beq] at h; simp [h]
  | .num a, .num b, h => by simp [Json.beq] at h; simp [h]
  | .str a, .str b, h => by simp [Json.beq] at h; simp [h]
  | .arr xs, .arr ys, h => by
      simp only [Json.beq] at h
      simp [Json.eqList_of_beq xs ys h]
  | .obj xs, .obj ys, h => by
      simp only [Json.beq] at h
      simp [Json.eqObj_of_beq xs ys h]
  | .null, .bool _, h => by simp [Json.beq] at h
  | .null, .num _, h => by simp [Json.beq] at h
  | .null, .str _, h => by simp [Json.beq] at h
  | .null, .arr _, h => by simp [Json.beq] at h
  | .null, .obj _, h => by simp [Json.beq] at h
  | .bool _, .null, h => by simp [Json.beq] at h
  | .bool _, .num _, h => by simp [Json.beq] at h
  | .bool _, .str _, h => by simp [Json.beq] at h
  | .bool _, .arr _, h => by simp [Json.beq] at h
  | .bool _, .obj _, h => by simp [Json.beq] at h
  | .num _, .null, h => by simp [Json.beq] at h
  | .num _, .bool _, h => by simp [Json.beq] at h
  | .num _, .str _, h => by simp [Json.beq] at h
  | .num _, .arr _, h => by simp [Json.beq] at h
  | .num _, .obj _, h => by simp [Json.beq] at h
  | .str _, .null, h => by simp [Json.beq] at h
  | .str _, .bool _, h => by simp [Json.beq] at h
  | .str _, .num _, h => by simp [Json.beq] at h
  | .str _, .arr _, h => by simp [Json.beq] at h
  | .str _, .obj _, h => by simp [Json.beq] at h
  | .arr _, .null, h => by simp [Json.beq] at h
  | .arr _, .bool _, h => by simp [Json.beq] at h
  | .arr _, .num _, h => by simp [Json.beq] at h
  | .arr _, .str _, h => by simp [Json.beq] at h
  | .arr _, .obj _, h => by simp [Json.beq] at h
  | .obj _, .null, h => by simp [Json.beq] at h
  | .obj _, .bool _, h => by simp [Json.beq] at h
  | .obj _, .num _, h => by simp [Json.beq] at h
  | .obj _, .str _, h => by simp [Json.beq] at h
  | .obj _, .arr _, h => by simp [Json.beq] at h

theorem Json.eqList_of_beq : ∀ xs ys : List Json, Json.beqList xs ys = true → xs = ys
  | [], [], _ => rfl
  | [], _ :: _, h => by simp [Json.beqList] at h
  | _ :: _, [], h => by simp [Json.beqList] at h
  | x :: xs, y :: ys, h => by
      simp only [Json.beqList, Bool.and_eq_true] at h
      simp [Json.eq_of_beq x y h.1, Json.eqList_of_beq xs ys h.2]

theorem Json.eqObj_of_beq : ∀ xs ys : List (String × Json), Json.beqObj xs ys = true → xs = ys
  | [], [], _ => rfl
  | [], _ :: _, h => by simp [Json.beqObj] at h
  | _ :: _, [], h => by simp [Json.beqObj] at h
  | (k, v) :: xs, (k2, v2) :: ys, h => by
      simp only [Json.beqObj, Bool.and_eq_true] at h
      obtain ⟨⟨hk, hv⟩, hrest⟩ := h
      simp only [beq_iff_eq] at hk
      simp [hk, Json.eq_of_beq v v2 hv, Json.eqObj_of_beq xs ys hrest]

end

instance : BEq Json := ⟨Json.beq⟩

instance : LawfulBEq Json where
  rfl := Json.beq_refl _
  eq_of_beq := Json.eq_of_beq _ _

instance : DecidableEq Json := fun a b =>
  if h : Json.beq a b = true then .isTrue (Json.eq_of_beq a b h)
  else .isFalse fun he => h (he ▸ Json.beq_refl a)

/-- Python exception classes raised by the code under study, with their
message. -/
inductive PyErr where
  | attributeError (msg : String) : PyErr
  | typeError (msg : String) : PyErr
  | valueError (msg : String) : PyErr
  | indexError (msg : String) : PyErr
  | keyError (msg : String) : PyErr
deriving DecidableEq

/-- The exception class of an error: this is what a Python caller can
discriminate on with `except SomeClass`. -/
def PyErr.kind : PyErr → String
  | .attributeError _ => "AttributeError"
  | .typeError _ => "TypeError"
  | .valueError _ => "ValueError"
  | .indexError _ => "IndexError"
  | .keyError _ => "KeyError"

/-- First-match lookup in an association list (Python dict lookup). -/
def jLookup : List (String × Json) → String → Option Json
  | [], _ => none
  | (k, v) :: rest, key => if k = key then some v else jLookup rest key

/-- `dict.get(key, default)`. -/
def jLookupD (kvs : List (String × Json)) (key : String) (d : Json) : Json :=
  (jLookup kvs key).getD d

/-- Python `value.get(key)` (default `None`): succeeds only on dicts,
every other receiver has no `get` attribute. -/
def pyGet (j : Json) (key : String) : Except PyErr Json :=
  match j with
  | .obj kvs => .ok (jLookupD kvs key .null)
  | _ => .error (.attributeError ("object has no attribute get: " ++ key))

/-- Python `value.get(key, default)`. -/
def pyGetD (j : Json) (key : String) (d : Json) : Except PyErr Json :=
  match j with
  | .obj kvs => .ok (jLookupD kvs key d)
  | _ => .error (.attributeError ("object has no attribute get: " ++ key))

/-- Python truthiness. -/
def pyTruthy : Json → Bool
  | .null => false
  | .bool b => b
  | .num q => q ≠ 0
  | .str s => s ≠ ""
  | .arr xs => !xs.isEmpty
  | .obj kvs => !kvs.isEmpty

/-- Python `len`: defined for sized containers, `TypeError` otherwise. -/
def pyLen : Json → Except PyErr Nat
  | .arr xs => .ok xs.length
  | .str s => .ok s.length
  | .obj kvs => .ok kvs.length
  | _ => .error (.typeError "object has no len")

/-- Python iteration `for x in v`: lists yield elements, strings yield
one-character strings, dicts yield their keys. -/
def pyIter : Json → Except PyErr (List Json)
  | .arr xs => .ok xs
  | .str s => .ok (s.toList.map fun c => .str (String.mk [c]))
  | .obj kvs => .ok (kvs.map fun kv => .str kv.1)
  | _ => .error (.typeError "object is not iterable")

/-- Python `==`.  Structural comparison; numeric values compare by
rational value, so the `int`/`float` distinction is erased exactly as in
Python (`0 == 0.0`). -/
def pyEq (a b : Json) : Bool := decide (a = b)

/-- Python sequence indexing `v[i]` with an integer index, including the
negative-offset convention. -/
def pyIndex (j : Json) (i : Int) : Except PyErr Json :=
  match j with
  | .arr xs =>
      let k : Int := if i < 0 then i + xs.length else i
      if h : 0 ≤ k ∧ k.toNat < xs.length then .ok (xs.get ⟨k.toNat, h.2⟩)
      else .error (.indexError "list index out of range")
  | .str s =>
      let cs := s.toList
      let k : Int := if i < 0 then i + cs.length else i
      if h : 0 ≤ k ∧ k.toNat < cs.length then .ok (.str (String.mk [cs.get ⟨k.toNat, h.2⟩]))
      else .error (.indexError "string index out of range")
  | .obj _ => .error (.keyError "integer key not present")
  | _ => .error (.typeError "object is not subscriptable")

/-- Numeric view used by Python arithmetic and comparisons: numbers are
themselves, booleans are 0/1 (Python `bool` is an `int` subtype). -/
def asNum : Json → Option ℚ
  | .num q => some q
  | .bool b => some (if b then 1 else 0)
  | _ => none

/-- Python `a <= b`: numeric comparison on numbers/booleans, lexicographic
on two strings, `TypeError` on mixed or unordered operands. -/
def pyLe (a b : Json) : Except PyErr Bool :=
  match asNum a, asNum b with
  | some x, some y => .ok (decide (x ≤ y))
  | _, _ =>
    match a, b with
    | .str s, .str t => .ok (decide (s ≤ t))
    | _, _ => .error (.typeError "comparison not supported between operands")

mutual

/-- Rendering used for f-string interpolation of values inside warning and
error messages.  The exact text Python produces for floats is not
reproduced (none of the verified properties depend on message text). -/
def renderJson : Json → String
  | .null => "None"
  | .bool b => if b then "True" else "False"
  | .num q => if q.den = 1 then toString q.num else toString q
  | .str s => "'" ++ s ++ "'"
  | .arr xs => "[" ++ renderList xs ++ "]"
  | .obj kvs => "\x7b" ++ renderObj kvs ++ "\x7d"

/-- Comma-separated rendering of array elements. -/
def renderList : List Json → String
  | [] => ""
  | [x] => renderJson x
  | x :: y :: rest => renderJson x ++ ", " ++ renderList (y :: rest)

/-- Comma-separated rendering of object entries. -/
def renderObj : List (String × Json) → String
  | [] => ""
  | [(k, v)] => "'" ++ k ++ "': " ++ renderJson v
  | (k, v) :: kv :: rest =>
      "'" ++ k ++ "': " ++ renderJson v ++ ", " ++ renderObj (kv :: rest)

end

/-!
## Topology decoder (`src/mtu/converters/topojson.py`, class `TopoJSONConverter`)

The arc-decoding helpers `_decode_arcs`, `_decode_arc` and
`_transform_point` are embedded at the types their Python annotations
declare (`list[int]` arc indices, `list[list[list[int]]]` arcs); the
dynamically-typed entry point `convert` and the recursive
`_decode_geometry` dispatch are embedded over `Json`.
-/

/-- The optional `transform` member of a topology, with the
`scale`/`translate` defaults of `_transform_point` already resolved. -/
structure TransformRec where
  scale : ℚ × ℚ
  translate : ℚ × ℚ
deriving DecidableEq

/-- `TopoJSONConverter._transform_point` on a numeric point.  With no
transform the Python code casts the two components to `float`, which
preserves their value; otherwise it applies the affine
scale-and-translate per axis. -/
def transformPoint (point : ℚ × ℚ) (transform : Option TransformRec) : ℚ × ℚ :=
  match transform with
  | none => point
  | some t => (point.1 * t.scale.1 + t.translate.1, point.2 * t.scale.2 + t.translate.2)

/-- Loop of `TopoJSONConverter._decode_arc`: running `(x, y)` accumulator
over the delta pairs, emitting the transform of each partial sum. -/
def decodeArcAux (transform : Option TransformRec) : List (ℤ × ℤ) → ℤ → ℤ → List (ℚ × ℚ)
  | [], _, _ => []
  | d :: ds, x, y =>
      transformPoint ((x + d.1 : ℤ), (y + d.2 : ℤ)) transform ::
        decodeArcAux transform ds (x + d.1) (y + d.2)

/-- `TopoJSONConverter._decode_arc`: decode one delta-encoded arc,
starting the accumulator at `(0, 0)`. -/
def decodeArc (arc : List (ℤ × ℤ)) (transform : Option TransformRec) : List (ℚ × ℚ) :=
  decodeArcAux transform arc 0 0

/-- Resolution of one arc index by `TopoJSONConverter._decode_arcs`: for a
negative index `i` the code takes `arcs[~i]` and reverses the **delta
list** before decoding; a non-negative index selects `arcs[i]` unchanged.
Out-of-range indices raise `IndexError` (Python list indexing). -/
def resolveArcIndex (arcs : List (List (ℤ × ℤ))) (i : ℤ) :
    Except PyErr (List (ℤ × ℤ)) :=
  if i < 0 then
    -- `~i = -1 - i`
    let j := (-1 - i).toNat
    if h : j < arcs.length then .ok (arcs.get ⟨j, h⟩).reverse
    else .error (.indexError "list index out of range")
  else
    let j := i.toNat
    if h : j < arcs.length then .ok (arcs.get ⟨j, h⟩)
    else .error (.indexError "list index out of range")

/-- Loop of `TopoJSONConverter._decode_arcs`: extend the accumulated
coordinates with each decoded arc, skipping the decoded arc's first point
whenever the accumulator is non-empty (`start = 0 if not coordinates else
1`). -/
def decodeArcsAux (arcs : List (List (ℤ × ℤ))) (transform : Option TransformRec) :
    List ℤ → List (ℚ × ℚ) → Except PyErr (List (ℚ × ℚ))
  | [], coordinates => .ok coordinates
  | i :: rest, coordinates => do
      let arc ← resolveArcIndex arcs i
      let decoded := decodeArc arc transform
      let start := if coordinates.isEmpty then 0 else 1
      decodeArcsAux arcs transform rest (coordinates ++ decoded.drop start)

/-- `TopoJSONConverter._decode_arcs`: decode a chain of arc indices into
one coordinate sequence. -/
def decodeArcs (arcIndices : List ℤ) (arcs : List (List (ℤ × ℤ)))
    (transform : Option TransformRec) : Except PyErr (List (ℚ × ℚ)) :=
  decodeArcsAux arcs transform arcIndices []

/-- Python `float(x)`-compatible numeric coercion. -/
def toNumQ (j : Json) : Except PyErr ℚ :=
  match asNum j with
  | some q => .ok q
  | none => .error (.typeError "a number is required")

/-- Coercion of a JSON value used as a Python list index (`arcs[i]`):
integers (and booleans) only. -/
def toIntZ (j : Json) : Except PyErr ℤ :=
  match j with
  | .num q => if q.den = 1 then .ok q.num else .error (.typeError "list indices must be integers")
  | .bool b => .ok (if b then 1 else 0)
  | _ => .error (.typeError "list indices must be integers")

/-- Read an integer delta pair `point[0], point[1]` from a JSON point. -/
def parsePointZ (j : Json) : Except PyErr (ℤ × ℤ) := do
  let x ← pyIndex j 0
  let y ← pyIndex j 1
  let zx ← toIntZ x
  let zy ← toIntZ y
  return (zx, zy)

/-- Read one arc (a list of integer delta pairs) from JSON. -/
def parseArc (j : Json) : Except PyErr (List (ℤ × ℤ)) := do
  let pts ← pyIter j
  pts.mapM parsePointZ

/-- Read the arc table from JSON.  The Python code keeps the table as raw
JSON and touches entries only when an arc index is decoded; the embedding
reads the table when `convert` starts.  On every input whose referenced
arcs are well-formed integer delta lists the two behaviours coincide. -/
def parseArcs (j : Json) : Except PyErr (List (List (ℤ × ℤ))) := do
  let given ← pyIter j
  given.mapM parseArc

/-- Read a coordinate pair (used for `scale` and `translate`). -/
def parsePairQ (j : Json) : Except PyErr (ℚ × ℚ) := do
  let x ← pyIndex j 0
  let y ← pyIndex j 1
  let qx ← toNumQ x
  let qy ← toNumQ y
  return (qx, qy)

/-- Read the optional `transform` member, resolving the `[1, 1]` /
`[0, 0]` defaults that `_transform_point` applies via `transform.get`. -/
def parseTransform (j : Json) : Except PyErr (Option TransformRec) :=
  match j with
  | .null => .ok none
  | .obj kvs => do
      let s ← parsePairQ (jLookupD kvs "scale" (.arr [.num 1, .num 1]))
      let t ← parsePairQ (jLookupD kvs "translate" (.arr [.num 0, .num 0]))
      return some ⟨s, t⟩
  | _ => .error (.attributeError "object has no attribute get: scale")

/-- A list of arc indices as carried by a LineString or a polygon ring. -/
def toIntList (j : Json) : Except PyErr (List ℤ) := do
  let xs ← pyIter j
  xs.mapM toIntZ

/-- `_transform_point` applied to a JSON point: index components 0 and 1,
coerce to numbers, transform. -/
def transformPointJson (p : Json) (transform : Option TransformRec) : Except PyErr Json := do
  let x ← pyIndex p 0
  let y ← pyIndex p 1
  let qx ← toNumQ x
  let qy ← toNumQ y
  let r := transformPoint (qx, qy) transform
  return .arr [.num r.1, .num r.2]

/-- Encode a decoded coordinate sequence back to JSON. -/
def encodePts (ps : List (ℚ × ℚ)) : Json :=
  .arr (ps.map fun p => .arr [.num p.1, .num p.2])

/-- Python `str(x)` as used by f-string interpolation. -/
def pyStr : Json → String
  | .str s => s
  | j => renderJson j

/-- The non-recursive arms of `_decode_geometry`'s dispatch (every tag
except `GeometryCollection`, whose children recurse).  The source checks
the tags in sequence; since all conditions are mutually exclusive string
comparisons, splitting the `GeometryCollection` arm out first is
behaviourally identical. -/
def decodeGeometryNonRec (kvs : List (String × Json)) (arcs : List (List (ℤ × ℤ)))
    (transform : Option TransformRec) (t : Json) : Except PyErr Json :=
  if t = Json.null ∨ t = Json.str "null" then
    .ok Json.null
  else if t = Json.str "Point" then do
    let c := jLookupD kvs "coordinates" (.arr [])
    let p ← transformPointJson c transform
    return .obj [("type", .str "Point"), ("coordinates", p)]
  else if t = Json.str "MultiPoint" then do
    let c := jLookupD kvs "coordinates" (.arr [])
    let cs ← pyIter c
    let ps ← cs.mapM (transformPointJson · transform)
    return .obj [("type", .str "MultiPoint"), ("coordinates", .arr ps)]
  else if t = Json.str "LineString" then do
    let a := jLookupD kvs "arcs" (.arr [])
    let idxs ← toIntList a
    let pts ← decodeArcs idxs arcs transform
    return .obj [("type", .str "LineString"), ("coordinates", encodePts pts)]
  else if t = Json.str "MultiLineString" then do
    let a := jLookupD kvs "arcs" (.arr [])
    let groups ← pyIter a
    let ls ← groups.mapM fun g => do
      let idxs ← toIntList g
      let pts ← decodeArcs idxs arcs transform
      pure (encodePts pts)
    return .obj [("type", .str "MultiLineString"), ("coordinates", .arr ls)]
  else if t = Json.str "Polygon" then do
    let a := jLookupD kvs "arcs" (.arr [])
    let rings ← pyIter a
    let rs ← rings.mapM fun r => do
      let idxs ← toIntList r
      let pts ← decodeArcs idxs arcs transform
      pure (encodePts pts)
    return .obj [("type", .str "Polygon"), ("coordinates", .arr rs)]
  else if t = Json.str "MultiPolygon" then do
    let a := jLookupD kvs "arcs" (.arr [])
    let polys ← pyIter a
    let ps ← polys.mapM fun poly => do
      let rings ← pyIter poly
      let rs ← rings.mapM fun r => do
        let idxs ← toIntList r
        let pts ← decodeArcs idxs arcs transform
        pure (encodePts pts)
      pure (Json.arr rs)
    return .obj [("type", .str "MultiPolygon"), ("coordinates", .arr ps)]
  else
    .error (.valueError ("Unknown geometry type: " ++ pyStr t))

mutual

/-- `TopoJSONConverter._decode_geometry`: dispatch on the `type` tag and
decode each variant; `GeometryCollection` recurses over its children; an
unrecognised tag raises `ValueError`.  `geometry.get` raises
`AttributeError` on a non-dict geometry; every
`geometry.get(key, default)` becomes an association-list lookup with the
same default. -/
def decodeGeometry (geometry : Json) (arcs : List (List (ℤ × ℤ)))
    (transform : Option TransformRec) : Except PyErr Json :=
  match geometry with
  | .obj kvs =>
      let t := jLookupD kvs "type" .null
      if t = Json.str "GeometryCollection" then do
        let decoded ← decodeGeomsEntry kvs arcs transform
        return .obj [("type", .str "GeometryCollection"), ("geometries", .arr decoded)]
      else
        decodeGeometryNonRec kvs arcs transform t
  | _ => .error (.attributeError "object has no attribute get: type")
termination_by structural geometry

/-- `geometry.get("geometries", [])` followed by the decoding loop: walk
the entries to the first `"geometries"` key; a missing key iterates the
`[]` default. -/
def decodeGeomsEntry : List (String × Json) → List (List (ℤ × ℤ)) →
    Option TransformRec → Except PyErr (List Json)
  | [], _, _ => .ok []
  | (k, v) :: rest, arcs, transform =>
      if k = "geometries" then decodeGeomsVal v arcs transform
      else decodeGeomsEntry rest arcs transform
termination_by structural x _ _ => x

/-- Iterate the `geometries` container.  For a non-list container the
code unfolds to the error Python hits: iterating a string or a dict
yields strings, on which the recursive call's `geometry.get` immediately
raises `AttributeError`; other values are not iterable. -/
def decodeGeomsVal : Json → List (List (ℤ × ℤ)) → Option TransformRec →
    Except PyErr (List Json)
  | .arr gs, arcs, transform => decodeGeomList gs arcs transform
  | .str s, _, _ =>
      if s.isEmpty then .ok []
      else .error (.attributeError "object has no attribute get: type")
  | .obj kvs, _, _ =>
      if kvs.isEmpty then .ok []
      else .error (.attributeError "object has no attribute get: type")
  | _, _, _ => .error (.typeError "object is not iterable")
termination_by structural x _ _ => x

/-- `[self._decode_geometry(g, ...) for g in geometries]`. -/
def decodeGeomList : List Json → List (List (ℤ × ℤ)) → Option TransformRec →
    Except PyErr (List Json)
  | [], _, _ => .ok []
  | g :: gs, arcs, transform => do
      let d ← decodeGeometry g arcs transform
      let ds ← decodeGeomList gs arcs transform
      return d :: ds
termination_by structural x _ _ => x

end

/-- The value returned by `TopoJSONConverter.convert` (its converter-level
warnings are plain strings, lighter weight than the validator's). -/
structure ConversionResult where
  geojson : Json
  source_format : String
  feature_count : ℕ
  warnings : List String
  metadata : List (String × Json)

/-- Selection of the first object in insertion order (`next(iter(objects))`),
with the multiple-objects warning.  Callers have already established that
`objects` is truthy; an empty dict here is unreachable from `convert`. -/
def selectFirst (objects : Json) : Except PyErr (String × Json × List String) :=
  match objects with
  | .obj [] => .error (.valueError "unreachable: empty objects")
  | .obj ((k, v) :: rest) =>
      let warnings := if rest.isEmpty then [] else
        ["Multiple objects found, using '" ++ k ++ "'. Available: " ++
          String.intercalate ", " (((k, v) :: rest).map fun kv => kv.1)]
      .ok (k, v, warnings)
  | _ => .error (.typeError "non-dict objects container")

/-- Object selection in `TopoJSONConverter.convert`: `if object_name:`
(string truthiness, so an empty name falls back to the default), then a
membership test with `ValueError` on a missing name; otherwise the first
object in insertion order. -/
def selectObject (objects : Json) (object_name : Option String) :
    Except PyErr (String × Json × List String) :=
  match object_name with
  | some n =>
      if n ≠ "" then
        match objects with
        | .obj kvs =>
            match jLookup kvs n with
            | some v => .ok (n, v, [])
            | none => .error (.valueError ("Object '" ++ n ++ "' not found in TopoJSON"))
        | _ => .error (.typeError "non-dict objects container")
      else selectFirst objects
  | none => selectFirst objects

/-- `TopoJSONConverter.convert` on an already-parsed topology value (the
file-reading path is an external concern): check the root tag, check
`objects` is non-empty, select the object, then decode each of its
geometries into a `Feature` of the output `FeatureCollection`. -/
def convert (topojson : Json) (object_name : Option String) :
    Except PyErr ConversionResult := do
  let t ← pyGet topojson "type"
  if !(pyEq t (.str "Topology")) then
    throw (.valueError "Input is not a valid TopoJSON (missing 'Topology' type)")
  let objects ← pyGetD topojson "objects" (.obj [])
  if !(pyTruthy objects) then
    throw (.valueError "TopoJSON contains no objects")
  let sel ← selectObject objects object_name
  let name := sel.1
  let obj := sel.2.1
  let warnings := sel.2.2
  let arcsJ ← pyGetD topojson "arcs" (.arr [])
  let arcs ← parseArcs arcsJ
  let transformJ ← pyGet topojson "transform"
  let transform ← parseTransform transformJ
  let geometriesJ ← pyGetD obj "geometries" (.arr [obj])
  let geometries ← pyIter geometriesJ
  let features ← geometries.mapM fun geometry => do
    let props ← pyGetD geometry "properties" (.obj [])
    let geom ← decodeGeometry geometry arcs transform
    let base := [("type", Json.str "Feature"), ("properties", props), ("geometry", geom)]
    match geometry with
    | .obj kvs =>
        match jLookup kvs "id" with
        | some v => pure (Json.obj (base ++ [("id", v)]))
        | none => pure (Json.obj base)
    | _ => throw (.typeError "argument is not a container")
  let geojson := Json.obj [("type", .str "FeatureCollection"), ("features", .arr features)]
  return ⟨geojson, "TopoJSON", features.length, warnings, [("source_object", .str name)]⟩

/-!
## Geometry validator (`src/mapbox_tileset_uploader/validators.py`)

`GeometryValidator` walks arbitrary JSON in the `Except` monad; every
defect it detects becomes a `ValidationWarning`.  The optional shapely
deep-validity collaborator is a third-party library; it is abstracted as
an oracle in the configuration (`_check_shapely_validity` wraps its whole
body in `try/except Exception`, so at the embedding's granularity the
check itself never raises).
-/

/-- `validators.ValidationWarning`.  `feature_id` is the raw
`feature.get("id")` value (`Json.null` models Python `None`). -/
structure ValidationWarning where
  feature_index : Option ℕ
  feature_id : Json
  warning_type : String
  message : String
  severity : String := "warning"
  details : List (String × Json) := []
deriving DecidableEq

/-- `validators.ValidationResult`. -/
structure ValidationResult where
  valid : Bool
  warnings : List ValidationWarning := []
  feature_count : ℕ := 0
  valid_feature_count : ℕ := 0
deriving DecidableEq

/-- Outcome of one invocation of the shapely collaborator on a geometry:
either the library returns its validity/emptiness verdict, or something
in the guarded block raises. -/
inductive ShapelyOutcome where
  | result (isValid : Bool) (invalidReason : String) (isEmpty : Bool) : ShapelyOutcome
  | raises (msg : String) : ShapelyOutcome

/-- `GeometryValidator` configuration (`__init__` flags) together with the
environment facts the constructor probes: whether `import shapely`
succeeds, and the collaborator's behaviour. -/
structure VConfig where
  check_coordinates : Bool := true
  check_winding : Bool := true
  check_duplicates : Bool := true
  check_closure : Bool := true
  check_validity : Bool := true
  max_warnings : ℤ := 100
  shapely_available : Bool := false
  shapely : Json → ShapelyOutcome := fun _ => .raises ""

/-- `self._has_shapely`: set in `__init__` only when `check_validity` is
requested and the import succeeds. -/
def VConfig.hasShapely (cfg : VConfig) : Bool :=
  cfg.check_validity && cfg.shapely_available

/-- `GeometryValidator._validate_coordinate`.  Returns no warning at all
when `check_coordinates` is off; an `error` for a falsy or short
coordinate; otherwise an independent `out_of_bounds` warning per axis. -/
def validateCoordinate (cfg : VConfig) (coord : Json) (fi : Option ℕ) (fid : Json) :
    Except PyErr (List ValidationWarning) := do
  if !cfg.check_coordinates then
    return []
  if !(pyTruthy coord) then
    return [⟨fi, fid, "invalid_coordinate", "Invalid coordinate: " ++ renderJson coord,
             "error", []⟩]
  let n ← pyLen coord
  if n < 2 then
    return [⟨fi, fid, "invalid_coordinate", "Invalid coordinate: " ++ renderJson coord,
             "error", []⟩]
  let lon ← pyIndex coord 0
  let lat ← pyIndex coord 1
  let lonLow ← pyLe (.num (-180)) lon
  let lonOk ← if lonLow then pyLe lon (.num 180) else pure false
  let latLow ← pyLe (.num (-90)) lat
  let latOk ← if latLow then pyLe lat (.num 90) else pure false
  let lonWs := if lonOk then [] else
    [⟨fi, fid, "out_of_bounds",
      "Longitude " ++ pyStr lon ++ " is out of range [-180.0, 180.0]",
      "warning", [("coordinate", coord)]⟩]
  let latWs := if latOk then [] else
    [⟨fi, fid, "out_of_bounds",
      "Latitude " ++ pyStr lat ++ " is out of range [-90.0, 90.0]",
      "warning", [("coordinate", coord)]⟩]
  return lonWs ++ latWs

/-- `GeometryValidator._find_consecutive_duplicates`: the loop
`for i in range(1, len(coords))` appending every `i` with
`coords[i] == coords[i-1]`. -/
def findConsecutiveDuplicates (coords : Json) : Except PyErr (List ℕ) := do
  let n ← pyLen coords
  (List.range' 1 (n - 1)).foldlM (fun (dups : List ℕ) (i : ℕ) => do
    let a ← pyIndex coords (i : ℤ)
    let b ← pyIndex coords ((i : ℤ) - 1)
    pure (if pyEq a b then dups ++ [i] else dups)) []

/-- `GeometryValidator._is_counterclockwise`: shoelace sum
`Σ (x2 - x1) * (y2 + y1)` over consecutive vertex pairs; counter-clockwise
iff the total is negative. -/
def isCounterclockwise (ring : Json) : Except PyErr Bool := do
  let n ← pyLen ring
  let total ← (List.range (n - 1)).foldlM (fun (acc : ℚ) (i : ℕ) => do
    let p1 ← pyIndex ring (i : ℤ)
    let p2 ← pyIndex ring ((i : ℤ) + 1)
    let x1 ← toNumQ (← pyIndex p1 0)
    let y1 ← toNumQ (← pyIndex p1 1)
    let x2 ← toNumQ (← pyIndex p2 0)
    let y2 ← toNumQ (← pyIndex p2 1)
    pure (acc + (x2 - x1) * (y2 + y1))) (0 : ℚ)
  return decide (total < 0)

/-- `GeometryValidator._validate_line_string`. -/
def validateLineString (cfg : VConfig) (coords : Json) (fi : Option ℕ) (fid : Json) :
    Except PyErr (List ValidationWarning) := do
  let n ← pyLen coords
  if n < 2 then
    return [⟨fi, fid, "insufficient_coordinates",
             "LineString has " ++ toString n ++ " points, needs at least 2", "error", []⟩]
  let elems ← pyIter coords
  let coordWs ← elems.mapM fun c => validateCoordinate cfg c fi fid
  let dupWs ←
    if cfg.check_duplicates then do
      let dups ← findConsecutiveDuplicates coords
      if !dups.isEmpty then
        pure [⟨fi, fid, "duplicate_vertices",
               "LineString has " ++ toString dups.length ++ " duplicate consecutive vertices",
               "info",
               [("duplicate_indices", .arr ((dups.take 5).map fun i => .num i))]⟩]
      else pure []
    else pure []
  return coordWs.flatten ++ dupWs

/-- The human-readable ring label: `"exterior"` for ring 0, `"hole i"`
otherwise. -/
def ringLabel (ringIndex : ℕ) : String :=
  if ringIndex = 0 then "exterior" else "hole " ++ toString ringIndex

/-- One iteration of the ring loop of `GeometryValidator._validate_polygon`
(ring at `ringIndex`): minimum-point check (with `continue`), closure,
per-point coordinate checks, consecutive-duplicate scan excluding the
closing duplicate, winding order. -/
def validatePolygonRing (cfg : VConfig) (ringIndex : ℕ) (ring : Json)
    (fi : Option ℕ) (fid : Json) : Except PyErr (List ValidationWarning) := do
  let n ← pyLen ring
  if n < 4 then
    return [⟨fi, fid, "insufficient_coordinates",
             "Polygon " ++ ringLabel ringIndex ++ " ring has " ++ toString n ++
               " points, needs 4", "error", []⟩]
  let closureWs ←
    if cfg.check_closure then do
      let first ← pyIndex ring 0
      let last ← pyIndex ring (-1)
      if !(pyEq first last) then
        pure [⟨fi, fid, "unclosed_ring",
               "Polygon " ++ ringLabel ringIndex ++ " ring is not closed", "warning",
               [("first", first), ("last", last)]⟩]
      else pure []
    else pure []
  let elems ← pyIter ring
  let coordWs ← elems.mapM fun c => validateCoordinate cfg c fi fid
  let dupWs ←
    if cfg.check_duplicates then do
      let dups ← findConsecutiveDuplicates ring
      let first ← pyIndex ring 0
      let last ← pyIndex ring (-1)
      let dups := if pyEq first last && dups.contains (n - 1) then dups.erase (n - 1) else dups
      if !dups.isEmpty then
        pure [⟨fi, fid, "duplicate_vertices",
               "Polygon " ++ ringLabel ringIndex ++ " ring has " ++ toString dups.length ++
                 " duplicate vertices", "info", []⟩]
      else pure []
    else pure []
  let windWs ←
    if cfg.check_winding && decide (4 ≤ n) then do
      let ccw ← isCounterclockwise ring
      if ringIndex = 0 && ccw then
        pure [⟨fi, fid, "wrong_winding",
               "Exterior ring should be clockwise (RFC 7946)", "info", []⟩]
      else if decide (0 < ringIndex) && !ccw then
        pure [⟨fi, fid, "wrong_winding",
               "Hole " ++ toString ringIndex ++ " should be counter-clockwise (RFC 7946)",
               "info", []⟩]
      else pure []
    else pure []
  return closureWs ++ coordWs.flatten ++ dupWs ++ windWs

/-- `GeometryValidator._validate_polygon`: `empty_polygon` for a falsy
ring container, else the ring loop. -/
def validatePolygon (cfg : VConfig) (rings : Json) (fi : Option ℕ) (fid : Json) :
    Except PyErr (List ValidationWarning) := do
  if !(pyTruthy rings) then
    return [⟨fi, fid, "empty_polygon", "Polygon has no rings", "error", []⟩]
  let rs ← pyIter rings
  let wss ← rs.enum.mapM fun ri => validatePolygonRing cfg ri.1 ri.2 fi fid
  return wss.flatten

/-- `GeometryValidator._check_shapely_validity`: the whole body is inside
`try/except Exception`, so a collaborator failure degrades to a single
`info` `validation_error`; otherwise an `invalid_geometry` and/or
`empty_geometry` warning, both of severity `warning`. -/
def checkShapelyValidity (cfg : VConfig) (geometry : Json) (fi : Option ℕ) (fid : Json) :
    List ValidationWarning :=
  match cfg.shapely geometry with
  | .raises msg =>
      [⟨fi, fid, "validation_error", "Could not validate geometry: " ++ msg, "info", []⟩]
  | .result isValid reason isEmpty =>
      (if !isValid then
        [⟨fi, fid, "invalid_geometry", "Invalid geometry: " ++ reason, "warning",
          [("shapely_reason", .str reason)]⟩]
       else []) ++
      (if isEmpty then
        [⟨fi, fid, "empty_geometry", "Geometry is empty", "warning", []⟩]
       else [])

/-- The non-recursive arms of `_validate_geometry`'s dispatch (every tag
except `GeometryCollection`).  As with the decoder, the tag conditions
are mutually exclusive string comparisons, so splitting the
`GeometryCollection` arm out first is behaviourally identical. -/
def validateGeometryNonRec (cfg : VConfig) (kvs : List (String × Json))
    (fi : Option ℕ) (fid : Json) (t : Json) : Except PyErr (List ValidationWarning) :=
  if t = Json.str "Point" then do
    let c := jLookupD kvs "coordinates" (.arr [])
    validateCoordinate cfg c fi fid
  else if t = Json.str "MultiPoint" then do
    let c := jLookupD kvs "coordinates" (.arr [])
    let cs ← pyIter c
    let wss ← cs.mapM fun x => validateCoordinate cfg x fi fid
    pure wss.flatten
  else if t = Json.str "LineString" then do
    let c := jLookupD kvs "coordinates" (.arr [])
    validateLineString cfg c fi fid
  else if t = Json.str "MultiLineString" then do
    let c := jLookupD kvs "coordinates" (.arr [])
    let ls ← pyIter c
    let wss ← ls.mapM fun l => validateLineString cfg l fi fid
    pure wss.flatten
  else if t = Json.str "Polygon" then do
    let c := jLookupD kvs "coordinates" (.arr [])
    validatePolygon cfg c fi fid
  else if t = Json.str "MultiPolygon" then do
    let c := jLookupD kvs "coordinates" (.arr [])
    let ps ← pyIter c
    let wss ← ps.mapM fun p => validatePolygon cfg p fi fid
    pure wss.flatten
  else if t = Json.null then
    pure [⟨fi, fid, "null_geometry", "Geometry type is null", "warning", []⟩]
  else
    pure [⟨fi, fid, "unknown_geometry_type", "Unknown geometry type: " ++ pyStr t,
           "error", []⟩]

mutual

/-- `GeometryValidator._validate_geometry`: dispatch on `type`, recursing
into `GeometryCollection` children, then (independently of the branch
taken) run the shapely deep-validity check when available.
`geometry.get` raises `AttributeError` on a non-dict geometry; every
`geometry.get(key, default)` becomes an association-list lookup with the
same default. -/
def validateGeometry (cfg : VConfig) (geometry : Json) (fi : Option ℕ) (fid : Json) :
    Except PyErr (List ValidationWarning) :=
  match geometry with
  | .obj kvs => do
    let t := jLookupD kvs "type" .null
    let ws ←
      if t = Json.str "GeometryCollection" then
        validateGeomsEntry cfg kvs fi fid
      else
        validateGeometryNonRec cfg kvs fi fid t
    if cfg.hasShapely then
      return ws ++ checkShapelyValidity cfg (.obj kvs) fi fid
    else
      return ws
  | _ => .error (.attributeError "object has no attribute get: type")
termination_by structural geometry

/-- `geometry.get("geometries", [])` followed by the validation loop:
walk the entries to the first `"geometries"` key; a missing key iterates
the `[]` default. -/
def validateGeomsEntry (cfg : VConfig) : List (String × Json) → Option ℕ → Json →
    Except PyErr (List ValidationWarning)
  | [], _, _ => .ok []
  | (k, v) :: rest, fi, fid =>
      if k = "geometries" then validateGeomsVal cfg v fi fid
      else validateGeomsEntry cfg rest fi fid
termination_by structural x _ _ => x

/-- Iterate the `geometries` container; as in `decodeGeomsVal`, a
non-list container is unfolded to the error Python hits on its
elements. -/
def validateGeomsVal (cfg : VConfig) : Json → Option ℕ → Json →
    Except PyErr (List ValidationWarning)
  | .arr gs, fi, fid => validateGeomList cfg gs fi fid
  | .str s, _, _ =>
      if s.isEmpty then .ok []
      else .error (.attributeError "object has no attribute get: type")
  | .obj kvs, _, _ =>
      if kvs.isEmpty then .ok []
      else .error (.attributeError "object has no attribute get: type")
  | _, _, _ => .error (.typeError "object is not iterable")
termination_by structural x _ _ => x

/-- `for geom in geometries: warnings.extend(self._validate_geometry(geom, ...))`. -/
def validateGeomList (cfg : VConfig) : List Json → Option ℕ → Json →
    Except PyErr (List ValidationWarning)
  | [], _, _ => .ok []
  | g :: gs, fi, fid => do
      let w ← validateGeometry cfg g fi fid
      let ws ← validateGeomList cfg gs fi fid
      return w ++ ws
termination_by structural x _ _ => x

end

/-- `GeometryValidator._validate_feature`: a non-`Feature` tag is a single
`error` and stops; otherwise a null-geometry / recursive-geometry check
followed by a null-properties check. -/
def validateFeature (cfg : VConfig) (feature : Json) (index : ℕ) :
    Except PyErr (List ValidationWarning) := do
  let fid ← pyGet feature "id"
  let t ← pyGet feature "type"
  if !(pyEq t (.str "Feature")) then
    return [⟨some index, fid, "invalid_feature", "Invalid feature type: " ++ pyStr t,
             "error", []⟩]
  let geometry ← pyGet feature "geometry"
  let geomWs ←
    if geometry = Json.null then
      pure [⟨some index, fid, "null_geometry", "Feature has null geometry", "warning", []⟩]
    else
      validateGeometry cfg geometry (some index) fid
  let props ← pyGet feature "properties"
  let propWs :=
    if props = Json.null then
      [⟨some index, fid, "null_properties",
        "Feature has null properties (should be empty object {})", "info", []⟩]
    else []
  return geomWs ++ propWs

/-- The single `info` cutoff warning appended when the warning budget is
exhausted. -/
def maxWarningsWarning (cfg : VConfig) : ValidationWarning :=
  ⟨none, .null, "max_warnings_reached",
   "Maximum warnings (" ++ toString cfg.max_warnings ++ ") reached, stopping validation",
   "info", []⟩

/-- Does a feature's warning list leave the feature valid (no
`error`-severity finding)? -/
def featureOk (ws : List ValidationWarning) : Bool :=
  !(ws.any fun w => w.severity == "error")

/-- The `FeatureCollection` loop of `GeometryValidator.validate`: before
each feature, if the accumulated warning count has reached `max_warnings`,
append the cutoff notice and stop; otherwise count and validate the
feature. -/
def fcLoop (cfg : VConfig) :
    List Json → ℕ → List ValidationWarning → ℕ → ℕ →
    Except PyErr (List ValidationWarning × ℕ × ℕ)
  | [], _, ws, total, valid => .ok (ws, total, valid)
  | f :: rest, i, ws, total, valid =>
      if (ws.length : ℤ) ≥ cfg.max_warnings then
        .ok (ws ++ [maxWarningsWarning cfg], total, valid)
      else do
        let fws ← validateFeature cfg f i
        fcLoop cfg rest (i + 1) (ws ++ fws) (total + 1)
          (if featureOk fws then valid + 1 else valid)

/-- The list of bare geometry type tags recognised by the top-level
dispatch of `validate`. -/
def geometryTypeNames : List String :=
  ["Point", "MultiPoint", "LineString", "MultiLineString",
   "Polygon", "MultiPolygon", "GeometryCollection"]

/-- Body of `GeometryValidator.validate` before the result record is
assembled: the top-level dispatch on `type`, producing the warning list,
`feature_count` and `valid_feature_count`. -/
def validateDispatch (cfg : VConfig) (geojson : Json) :
    Except PyErr (List ValidationWarning × ℕ × ℕ) := do
  let t ← pyGet geojson "type"
  if pyEq t (.str "FeatureCollection") then do
    let featuresJ ← pyGetD geojson "features" (.arr [])
    let features ← pyIter featuresJ
    fcLoop cfg features 0 [] 0 0
  else if pyEq t (.str "Feature") then do
    let fws ← validateFeature cfg geojson 0
    return (fws, 1, if featureOk fws then 1 else 0)
  else if geometryTypeNames.any fun s => pyEq t (.str s) then do
    let gws ← validateGeometry cfg geojson (some 0) .null
    return (gws, 1, if featureOk gws then 1 else 0)
  else
    return ([⟨none, .null, "invalid_type", "Invalid GeoJSON type: " ++ pyStr t,
              "error", []⟩], 0, 0)

/-- Assembly of the `ValidationResult`: `valid` is recomputed from the
final warning list (`errors == 0`). -/
def mkResult (ws : List ValidationWarning) (total valid : ℕ) : ValidationResult :=
  ⟨(ws.filter fun w => w.severity == "error").length == 0, ws, total, valid⟩

/-- `GeometryValidator.validate`. -/
def validate (cfg : VConfig) (geojson : Json) : Except PyErr ValidationResult := do
  let (ws, total, valid) ← validateDispatch cfg geojson
  return mkResult ws total valid

/-!
## Basic lemmas about the embedding
-/

@[simp]
theorem except_bind_ok {ε α β : Type} (a : α) (f : α → Except ε β) :
    (Except.ok a >>= f) = f a := rfl

@[simp]
theorem except_bind_error {ε α β : Type} (e : ε) (f : α → Except ε β) :
    ((Except.error e : Except ε α) >>= f) = .error e := rfl

@[simp]
theorem except_pure_eq {ε α : Type} (a : α) : (pure a : Except ε α) = .ok a := rfl

theorem pyEq_iff {a b : Json} : pyEq a b = true ↔ a = b := by
  simp [pyEq]

@[simp]
theorem pyEq_self (a : Json) : pyEq a a = true := by simp [pyEq]

/-!
## Claim C4 — `valid` equals "no error-severity warning"
-/

/-- C4: whenever `validate` returns a result, its `valid` flag is `true`
exactly when none of its warnings has severity `"error"`; in particular
`warning`- and `info`-severity findings never make `valid` false. -/
theorem validate_valid_iff_no_error {cfg : VConfig} {g : Json} {r : ValidationResult}
    (h : validate cfg g = .ok r) :
    r.valid = true ↔ ∀ w ∈ r.warnings, w.severity ≠ "error" := by
  unfold validate at h
  cases hd : validateDispatch cfg g with
  | error e => rw [hd] at h; simp at h
  | ok wtv =>
      rw [hd] at h
      obtain ⟨ws, total, valid⟩ := wtv
      simp only [except_bind_ok, except_pure_eq, Except.ok.injEq] at h
      subst h
      simp only [mkResult, beq_iff_eq, List.length_eq_zero, List.filter_eq_nil_iff,
        decide_eq_true_eq]

/-- Witness for C4 at the spec's own example: a `Point` at `[200, 0]`
yields a result with an `out_of_bounds` warning whose `valid` stays
`true`. -/
def c4Input : Json := .obj [("type", .str "Point"), ("coordinates", .arr [.num 200, .num 0])]

/-- The result `validate` produces on `c4Input` under the default
configuration (shapely unavailable). -/
def c4Result : ValidationResult :=
  ⟨true, [⟨some 0, .null, "out_of_bounds", "Longitude 200 is out of range [-180.0, 180.0]",
    "warning", [("coordinate", .arr [.num 200, .num 0])]⟩], 1, 1⟩

theorem validate_valid_iff_no_error_witness :
    validate {} c4Input = .ok c4Result ∧
      (c4Result.valid = true ↔ ∀ w ∈ c4Result.warnings, w.severity ≠ "error") :=
  ⟨rfl, @validate_valid_iff_no_error {} c4Input c4Result rfl⟩

/-!
## Claim C9 — identity transform and no transform leave coordinates unchanged
-/

/-- The running delta sums of an arc (the raw integer coordinates of the
spec), cast to the numeric coordinate type: the reference value the
decoder is supposed to produce when no scaling applies. -/
def rawDeltaSumsAux : List (ℤ × ℤ) → ℤ → ℤ → List (ℚ × ℚ)
  | [], _, _ => []
  | d :: ds, x, y => (((x + d.1 : ℤ) : ℚ), ((y + d.2 : ℤ) : ℚ)) :: rawDeltaSumsAux ds (x + d.1) (y + d.2)

/-- Raw integer coordinates of an arc: running delta sums from `(0, 0)`,
cast to the numeric coordinate type. -/
def rawDeltaSums (arc : List (ℤ × ℤ)) : List (ℚ × ℚ) :=
  rawDeltaSumsAux arc 0 0

theorem transformPoint_none (p : ℚ × ℚ) : transformPoint p none = p := rfl

theorem transformPoint_id (p : ℚ × ℚ) :
    transformPoint p (some ⟨(1, 1), (0, 0)⟩) = p := by
  simp [transformPoint]

theorem decodeArcAux_id_eq_none (ds : List (ℤ × ℤ)) :
    ∀ x y, decodeArcAux (some ⟨(1, 1), (0, 0)⟩) ds x y = decodeArcAux none ds x y := by
  induction ds with
  | nil => intro x y; rfl
  | cons d ds ih =>
      intro x y
      rw [decodeArcAux, decodeArcAux, transformPoint_id, transformPoint_none, ih]

theorem decodeArcAux_none_eq_raw (ds : List (ℤ × ℤ)) :
    ∀ x y, decodeArcAux none ds x y = rawDeltaSumsAux ds x y := by
  induction ds with
  | nil => intro x y; rfl
  | cons d ds ih =>
      intro x y
      simp [decodeArcAux, rawDeltaSumsAux, transformPoint_none, ih]

theorem decodeArcsAux_id_eq_none (arcs : List (List (ℤ × ℤ))) (chain : List ℤ) :
    ∀ acc, decodeArcsAux arcs (some ⟨(1, 1), (0, 0)⟩) chain acc =
      decodeArcsAux arcs none chain acc := by
  induction chain with
  | nil => intro acc; rfl
  | cons i rest ih =>
      intro acc
      simp only [decodeArcsAux]
      cases resolveArcIndex arcs i with
      | error e => rfl
      | ok arc =>
          simp only [except_bind_ok]
          rw [decodeArc, decodeArc, decodeArcAux_id_eq_none, ih]

/-- C9: with the identity transform `scale=(1,1), translate=(0,0)` every
decoded point equals the raw integer running delta sum cast to the
numeric type, exactly as with no transform at all; consequently whole
chains decode identically under the identity transform and under no
transform. -/
theorem decode_identity_transform :
    (∀ p : ℚ × ℚ, transformPoint p none = p) ∧
    (∀ p : ℚ × ℚ, transformPoint p (some ⟨(1, 1), (0, 0)⟩) = p) ∧
    (∀ arc : List (ℤ × ℤ), decodeArc arc (some ⟨(1, 1), (0, 0)⟩) = rawDeltaSums arc ∧
      decodeArc arc none = rawDeltaSums arc) ∧
    (∀ (chain : List ℤ) (arcs : List (List (ℤ × ℤ))),
      decodeArcs chain arcs (some ⟨(1, 1), (0, 0)⟩) = decodeArcs chain arcs none) := by
  refine ⟨transformPoint_none, transformPoint_id, fun arc => ⟨?_, ?_⟩, fun chain arcs => ?_⟩
  · rw [decodeArc, decodeArcAux_id_eq_none, decodeArcAux_none_eq_raw]; rfl
  · rw [decodeArc, decodeArcAux_none_eq_raw]; rfl
  · rw [decodeArcs, decodeArcs, decodeArcsAux_id_eq_none]

/-!
## Claim C2 — negative arc indices (code bug: the delta list is reversed,
not the decoded point order)
-/

/-- The arc table of the failing input: one arc with deltas
`[[0,0],[1,0],[0,1]]`, decoding forward to `(0,0), (1,0), (1,1)`. -/
def c2Arcs : List (List (ℤ × ℤ)) := [[(0, 0), (1, 0), (0, 1)]]

/-- C2 (code bug): on arc index `-1`, `_decode_arcs` reverses the delta
list before delta-decoding, producing `(0,1), (1,1), (1,1)` — not the
reversed point sequence `(1,1), (1,0), (0,0)` of arc `0` that the
TopoJSON semantics (and the spec) require.  The decoded chain does not
even start at arc 0's endpoint and contains a duplicated vertex. -/
theorem decodeArcs_negative_index_bug :
    decodeArcs [-1] c2Arcs none = .ok [(0, 1), (1, 1), (1, 1)] ∧
    (decodeArc [(0, 0), (1, 0), (0, 1)] none).reverse = [(1, 1), (1, 0), (0, 0)] ∧
    decodeArcs [-1] c2Arcs none ≠
      .ok ((decodeArc [(0, 0), (1, 0), (0, 1)] none).reverse) := by
  refine ⟨rfl, rfl, fun h => ?_⟩
  rw [show decodeArcs [-1] c2Arcs none = .ok [((0 : ℚ), (1 : ℚ)), (1, 1), (1, 1)] from rfl,
    show (decodeArc [(0, 0), (1, 0), (0, 1)] none).reverse =
      [((1 : ℚ), (1 : ℚ)), (1, 0), (0, 0)] from rfl] at h
  simp at h

/-!
## Claim C1 — chain concatenation drops the first point of every arc
after the first
-/

/-- Resolution and decoding of a single arc index, as one step of the
`_decode_arcs` loop performs it. -/
def decodeOneArc (arcs : List (List (ℤ × ℤ))) (t : Option TransformRec) (i : ℤ) :
    Except PyErr (List (ℚ × ℚ)) := do
  let a ← resolveArcIndex arcs i
  pure (decodeArc a t)

/-- Modelled from the spec: the concatenation of per-arc point sequences
in which the first point of every arc except the first in the chain is
dropped. -/
def specChainConcat (ds : List (List (ℚ × ℚ))) : List (ℚ × ℚ) :=
  match ds with
  | [] => []
  | d :: rest => d ++ (rest.map (List.drop 1)).flatten

theorem decodeArcAux_length (t : Option TransformRec) (ds : List (ℤ × ℤ)) :
    ∀ x y, (decodeArcAux t ds x y).length = ds.length := by
  induction ds with
  | nil => intro x y; rfl
  | cons d ds ih => intro x y; simp [decodeArcAux, ih]

theorem decodeArc_length (arc : List (ℤ × ℤ)) (t : Option TransformRec) :
    (decodeArc arc t).length = arc.length :=
  decodeArcAux_length t arc 0 0

theorem mapM_nil_ok {α β : Type} (f : α → Except PyErr β) :
    ([] : List α).mapM f = .ok [] := rfl

theorem mapM_loop_eq {α β : Type} (f : α → Except PyErr β) (l : List α) :
    List.mapM.loop f l [] = l.mapM f := rfl

theorem mapM_ok_length {α β : Type} {f : α → Except PyErr β} :
    ∀ {l : List α} {bs : List β}, l.mapM f = .ok bs → bs.length = l.length := by
  intro l
  induction l with
  | nil =>
      intro bs h
      rw [mapM_nil_ok] at h
      cases h
      rfl
  | cons a l ih =>
      intro bs h
      rw [List.mapM_cons] at h
      cases hf : f a with
      | error e => rw [hf] at h; simp at h
      | ok b =>
          rw [hf] at h
          simp only [except_bind_ok] at h
          cases hrest : l.mapM f with
          | error e => rw [hrest] at h; simp at h
          | ok bs2 =>
              rw [hrest] at h
              simp only [except_bind_ok, except_pure_eq, Except.ok.injEq] at h
              subst h
              simp [ih hrest]
theorem mapM_ok_mem {α β : Type} {f : α → Except PyErr β} :
    ∀ {l : List α} {bs : List β}, l.mapM f = .ok bs → ∀ b ∈ bs, ∃ a ∈ l, f a = .ok b := by
  intro l
  induction l with
  | nil =>
      intro bs h
      rw [mapM_nil_ok] at h
      cases h
      simp
  | cons a l ih =>
      intro bs h
      rw [List.mapM_cons] at h
      cases hf : f a with
      | error e => rw [hf] at h; simp at h
      | ok b0 =>
          rw [hf] at h
          simp only [except_bind_ok] at h
          cases hrest : l.mapM f with
          | error e => rw [hrest] at h; simp at h
          | ok bs2 =>
              rw [hrest] at h
              simp only [except_bind_ok, except_pure_eq, Except.ok.injEq] at h
              subst h
              intro b hb
              rcases List.mem_cons.mp hb with hb | hb
              · exact ⟨a, List.mem_cons_self a l, hb ▸ hf⟩
              · obtain ⟨a2, ha2, hfa2⟩ := ih hrest b hb
                exact ⟨a2, List.mem_cons_of_mem a ha2, hfa2⟩

theorem decodeArcsAux_spec (arcs : List (List (ℤ × ℤ))) (t : Option TransformRec) :
    ∀ (chain : List ℤ) (acc : List (ℚ × ℚ)),
    (∀ i ∈ chain, ∃ a, resolveArcIndex arcs i = .ok a ∧ a ≠ []) →
    ∃ ds, chain.mapM (decodeOneArc arcs t) = .ok ds ∧
      decodeArcsAux arcs t chain acc =
        .ok (if acc.isEmpty then specChainConcat ds
             else acc ++ (ds.map (List.drop 1)).flatten) := by
  intro chain
  induction chain with
  | nil =>
      intro acc _
      refine ⟨[], mapM_nil_ok _, ?_⟩
      cases acc with
      | nil => simp [decodeArcsAux, specChainConcat]
      | cons p ps => simp [decodeArcsAux]
  | cons i rest ih =>
      intro acc h
      obtain ⟨a, ha, hne⟩ := h i (List.mem_cons_self i rest)
      have hrest : ∀ j ∈ rest, ∃ a, resolveArcIndex arcs j = .ok a ∧ a ≠ [] :=
        fun j hj => h j (List.mem_cons_of_mem i hj)
      have hdne : decodeArc a t ≠ [] := by
        intro hcon
        have := decodeArc_length a t
        rw [hcon] at this
        exact hne (List.length_eq_zero.mp this.symm)
      have hone : decodeOneArc arcs t i = .ok (decodeArc a t) := by
        simp [decodeOneArc, ha]
      cases hacc : acc.isEmpty with
      | true =>
          have haccnil : acc = [] := List.isEmpty_iff.mp hacc
          subst haccnil
          obtain ⟨ds, hds, hrec⟩ := ih (decodeArc a t) hrest
          refine ⟨decodeArc a t :: ds, ?_, ?_⟩
          · rw [List.mapM_cons, hone]
            simp only [except_bind_ok]
            rw [hds]
            rfl
          · rw [decodeArcsAux, ha]
            simp only [except_bind_ok, List.isEmpty_nil, if_true, List.nil_append,
              List.drop_zero]
            rw [hrec, if_neg (by simp [List.isEmpty_iff, hdne])]
            simp [specChainConcat]
      | false =>
          have haccne : acc ≠ [] := by
            intro hcon; rw [hcon] at hacc; simp at hacc
          obtain ⟨ds, hds, hrec⟩ := ih (acc ++ (decodeArc a t).drop 1) hrest
          refine ⟨decodeArc a t :: ds, ?_, ?_⟩
          · rw [List.mapM_cons, hone]
            simp only [except_bind_ok]
            rw [hds]
            rfl
          · rw [decodeArcsAux, ha]
            simp only [except_bind_ok, hacc, Bool.false_eq_true, if_false]
            rw [hrec, if_neg (by simp [List.isEmpty_iff, haccne])]
            simp [List.append_assoc]
theorem specChainConcat_length :
    ∀ ds : List (List (ℚ × ℚ)), (∀ d ∈ ds, d ≠ []) →
      (specChainConcat ds).length + (ds.length - 1) = (ds.map List.length).sum := by
  intro ds
  cases ds with
  | nil => intro _; simp [specChainConcat]
  | cons d rest =>
      intro h
      simp only [specChainConcat, List.length_append, List.map_cons, List.sum_cons,
        List.length_cons]
      have key : ∀ rs : List (List (ℚ × ℚ)), (∀ r ∈ rs, r ≠ []) →
          ((rs.map (List.drop 1)).flatten).length + rs.length = (rs.map List.length).sum := by
        intro rs
        induction rs with
        | nil => intro _; simp
        | cons r rs ih =>
            intro hr
            have hrne : r ≠ [] := hr r (List.mem_cons_self r rs)
            have hlen : 1 ≤ r.length := by
              cases r with
              | nil => exact absurd rfl hrne
              | cons x xs => simp
            have h2 := ih fun x hx => hr x (List.mem_cons_of_mem r hx)
            simp only [List.map_cons, List.flatten_cons, List.length_append,
              List.length_cons, List.sum_cons, List.length_drop]
            omega
      have h2 := key rest fun r hr => h r (List.mem_cons_of_mem d hr)
      omega

/-- C1: whenever every index of a chain resolves to a non-empty arc, the
decoded chain is exactly the concatenation of the per-arc decoded point
sequences with the first point of every arc except the first dropped; its
point count is the sum of the per-arc point counts minus one per arc
after the first (so two arcs of `n` and `m` points stitch to `n + m - 1`
points). -/
theorem decodeArcs_concat_drop_first (chain : List ℤ) (arcs : List (List (ℤ × ℤ)))
    (t : Option TransformRec)
    (h : ∀ i ∈ chain, ∃ a, resolveArcIndex arcs i = .ok a ∧ a ≠ []) :
    ∃ ds, chain.mapM (decodeOneArc arcs t) = .ok ds ∧
      decodeArcs chain arcs t = .ok (specChainConcat ds) ∧
      ds.length = chain.length ∧
      (specChainConcat ds).length + (chain.length - 1) = (ds.map List.length).sum := by
  obtain ⟨ds, hds, hrun⟩ := decodeArcsAux_spec arcs t chain [] h
  refine ⟨ds, hds, ?_, mapM_ok_length hds, ?_⟩
  · rw [decodeArcs, hrun]
    simp
  · have hne : ∀ d ∈ ds, d ≠ [] := by
      intro d hd
      obtain ⟨i, hi, hfi⟩ := mapM_ok_mem hds d hd
      obtain ⟨a, ha, hane⟩ := h i hi
      simp only [decodeOneArc, ha, except_bind_ok, except_pure_eq, Except.ok.injEq] at hfi
      intro hcon
      have hlen := decodeArc_length a t
      rw [hfi, hcon] at hlen
      exact hane (List.length_eq_zero.mp hlen.symm)
    rw [← mapM_ok_length hds]
    exact specChainConcat_length ds hne

/-- Witness for C1: two shared-endpoint arcs of 3 and 2 points stitch to
a 4-point chain. -/
theorem decodeArcs_concat_drop_first_witness :
    ∃ ds, ([0, 1] : List ℤ).mapM
        (decodeOneArc [[(0, 0), (1, 0), (0, 1)], [(1, 1), (2, 0)]] none) = .ok ds ∧
      decodeArcs [0, 1] [[(0, 0), (1, 0), (0, 1)], [(1, 1), (2, 0)]] none =
        .ok (specChainConcat ds) ∧
      ds.length = ([0, 1] : List ℤ).length ∧
      (specChainConcat ds).length + (([0, 1] : List ℤ).length - 1) =
        (ds.map List.length).sum := by
  refine decodeArcs_concat_drop_first [0, 1] [[(0, 0), (1, 0), (0, 1)], [(1, 1), (2, 0)]] none ?_
  intro i hi
  rcases List.mem_cons.mp hi with hi | hi
  · subst hi
    exact ⟨[(0, 0), (1, 0), (0, 1)], rfl, by decide⟩
  · simp only [List.mem_cons, List.not_mem_nil, or_false] at hi
    subst hi
    exact ⟨[(1, 1), (2, 0)], rfl, by decide⟩

/-!
## Claim C6 — decoder failure modes (corrected: all four failures raise
the single exception type `ValueError`, distinguishable only by message)
-/

/-- The geometry type tags the decoder's dispatch recognises. -/
def decoderGeomTypes : List String :=
  ["Point", "MultiPoint", "LineString", "MultiLineString",
   "Polygon", "MultiPolygon", "GeometryCollection"]

/-- A topology whose single object carries an unrecognised geometry type
tag. -/
def unknownTypeTopo (s : String) : Json :=
  .obj [("type", .str "Topology"),
        ("objects", .obj [("layer", .obj [("type", .str s)])]),
        ("arcs", .arr [])]

/-- Counterexample to C6 as stated: a structural failure (root tag not
`"Topology"`) and a reference failure (missing object name) both raise
the same exception class `ValueError` — the caller cannot distinguish a
`StructuralError` from a `ReferenceError` by error type. -/
theorem convert_error_types_indistinguishable :
    convert (.obj [("type", .str "FeatureCollection")]) none =
      .error (.valueError "Input is not a valid TopoJSON (missing 'Topology' type)") ∧
    convert (.obj [("type", .str "Topology"),
        ("objects", .obj [("a", .obj [("type", .str "Point"),
          ("coordinates", .arr [.num 1, .num 2])])]),
        ("arcs", .arr [])]) (some "missing") =
      .error (.valueError "Object 'missing' not found in TopoJSON") ∧
    PyErr.kind (.valueError "Input is not a valid TopoJSON (missing 'Topology' type)") =
      PyErr.kind (.valueError "Object 'missing' not found in TopoJSON") :=
  ⟨rfl, rfl, rfl⟩

/-- C6 (amended): `convert` fails on a non-`"Topology"` root tag, on an
empty (falsy) `objects` member, on a missing `object_name`, and on an
unknown geometry type tag; each failure is fatal (an error, never a
partial result) and every one raises the same type, `ValueError`. -/
theorem convert_raises_valueError :
    (∀ (kvs : List (String × Json)) (name : Option String),
        jLookupD kvs "type" .null ≠ .str "Topology" →
        convert (.obj kvs) name =
          .error (.valueError "Input is not a valid TopoJSON (missing 'Topology' type)")) ∧
    (∀ (kvs : List (String × Json)) (name : Option String),
        jLookupD kvs "type" .null = .str "Topology" →
        pyTruthy (jLookupD kvs "objects" (.obj [])) = false →
        convert (.obj kvs) name = .error (.valueError "TopoJSON contains no objects")) ∧
    (∀ (kvs okvs : List (String × Json)) (n : String),
        jLookupD kvs "type" .null = .str "Topology" →
        jLookupD kvs "objects" (.obj []) = .obj okvs →
        okvs ≠ [] → n ≠ "" → jLookup okvs n = none →
        convert (.obj kvs) (some n) =
          .error (.valueError ("Object '" ++ n ++ "' not found in TopoJSON"))) ∧
    (∀ s : String, s ∉ decoderGeomTypes → s ≠ "null" →
        convert (unknownTypeTopo s) none =
          .error (.valueError ("Unknown geometry type: " ++ s))) := by
  refine ⟨?_, ?_, ?_, ?_⟩
  · intro kvs name h
    simp only [convert, pyGet, except_bind_ok, pyEq]
    rw [decide_eq_false h]
    rfl
  · intro kvs name h1 h2
    simp only [convert, pyGet, pyGetD, except_bind_ok, pyEq, h1, decide_eq_true_eq]
    rw [h2]
    rfl
  · intro kvs okvs n h1 h2 hne hn hmiss
    have htr : pyTruthy (jLookupD kvs "objects" (.obj [])) = true := by
      rw [h2]; simpa [pyTruthy, List.isEmpty_iff] using hne
    simp only [convert, pyGet, pyGetD, except_bind_ok, pyEq, h1, h2, htr,
      decide_eq_true_eq]
    simp only [decide_True, Bool.not_true, Bool.false_eq_true, if_false]
    have htr2 : pyTruthy (Json.obj okvs) = true := by
      simpa [pyTruthy, List.isEmpty_iff] using hne
    simp only [htr2, Bool.not_true, Bool.false_eq_true, if_false]
    simp only [selectObject, if_pos hn, hmiss]
    rfl
  · intro s hs hnull
    have hs7 : s ≠ "Point" ∧ s ≠ "MultiPoint" ∧ s ≠ "LineString" ∧
        s ≠ "MultiLineString" ∧ s ≠ "Polygon" ∧ s ≠ "MultiPolygon" ∧
        s ≠ "GeometryCollection" := by
      simp only [decoderGeomTypes, List.mem_cons, List.not_mem_nil, or_false] at hs
      push_neg at hs
      exact hs
    obtain ⟨h1, h2, h3, h4, h5, h6, h7⟩ := hs7
    have hg : decodeGeometry (.obj [("type", Json.str s)]) [] none =
        .error (.valueError ("Unknown geometry type: " ++ s)) := by
      simp only [decodeGeometry]
      simp only [jLookupD, jLookup, if_pos rfl, Option.getD_some]
      rw [if_neg (by simp [h7])]
      simp only [decodeGeometryNonRec]
      rw [if_neg (by simp [hnull]), if_neg (by simp [h1]), if_neg (by simp [h2]),
        if_neg (by simp [h3]), if_neg (by simp [h4]), if_neg (by simp [h5]),
        if_neg (by simp [h6])]
      simp [pyStr]
    simp only [unknownTypeTopo, convert, pyGet, pyGetD, except_bind_ok]
    simp only [jLookupD, jLookup, if_pos rfl, Option.getD_some, pyEq_self,
      Bool.not_true, Bool.false_eq_true, if_false]
    simp only [String.reduceEq, reduceIte, Option.getD_some, pyEq_self, pyTruthy,
      Bool.not_true, Bool.false_eq_true, if_false, List.isEmpty_cons, Bool.not_false,
      if_true]
    simp only [selectObject, selectFirst, List.isEmpty_nil, except_bind_ok, parseArcs,
      pyIter, List.mapM_nil, except_pure_eq, parseTransform, Option.getD_none,
    Option.getD_some, jLookup, String.reduceEq, reduceIte]
    simp only [List.mapM_cons, jLookup, String.reduceEq, reduceIte, Option.getD_none,
      except_bind_ok, hg, except_bind_error]

/-- Witness for C6 (amended) at four concrete topologies, one per failure
mode. -/
theorem convert_raises_valueError_witness :
    convert (.obj [("type", .str "Garbage")]) none =
      .error (.valueError "Input is not a valid TopoJSON (missing 'Topology' type)") ∧
    convert (.obj [("type", .str "Topology"), ("objects", .obj [])]) none =
      .error (.valueError "TopoJSON contains no objects") ∧
    convert (.obj [("type", .str "Topology"),
        ("objects", .obj [("a", .obj [("type", .str "Point"),
          ("coordinates", .arr [.num 1, .num 2])])]), ("arcs", .arr [])]) (some "nope") =
      .error (.valueError "Object 'nope' not found in TopoJSON") ∧
    convert (unknownTypeTopo "Weird") none =
      .error (.valueError "Unknown geometry type: Weird") :=
  ⟨convert_raises_valueError.1 _ none (by decide),
   convert_raises_valueError.2.1 _ none rfl rfl,
   convert_raises_valueError.2.2.1 _ _ "nope" rfl rfl (by decide) (by decide) rfl,
   convert_raises_valueError.2.2.2 "Weird" (by decide) (by decide)⟩

/-!
## Claim C3 — `max_warnings` cutoff in the FeatureCollection loop
-/

/-- A FeatureCollection input built from a feature list. -/
def mkFC (feats : List Json) : Json :=
  .obj [("type", .str "FeatureCollection"), ("features", .arr feats)]

/-- What C3 asserts of a result `r` of validating a FeatureCollection:
some prefix of `k` features was processed in order, each contributing its
warnings, counts and validity; the cutoff notice (a single `info`
`max_warnings_reached` warning) is appended exactly when features remain,
which happens exactly when the accumulated warning count first reached
`max_warnings`; features beyond the prefix contribute nothing. -/
def MaxWarningsCutoffSpec (cfg : VConfig) (feats : List Json) (r : ValidationResult) : Prop :=
  ∃ (k : ℕ) (wss : List (List ValidationWarning)),
    k ≤ feats.length ∧
    wss.length = k ∧
    (∀ j, j < k → validateFeature cfg (feats.getD j .null) j = .ok (wss.getD j [])) ∧
    r.warnings = wss.flatten ++ (if k < feats.length then [maxWarningsWarning cfg] else []) ∧
    r.feature_count = k ∧
    r.valid_feature_count = (wss.filter featureOk).length ∧
    (k < feats.length → (wss.flatten.length : ℤ) ≥ cfg.max_warnings) ∧
    (∀ j, j < k → ((wss.take j).flatten.length : ℤ) < cfg.max_warnings) ∧
    (maxWarningsWarning cfg).severity = "info" ∧
    (maxWarningsWarning cfg).warning_type = "max_warnings_reached"

theorem fcLoop_spec (cfg : VConfig) :
    ∀ (feats : List Json) (i : ℕ) (ws : List ValidationWarning) (total valid : ℕ)
      (out : List ValidationWarning × ℕ × ℕ),
    fcLoop cfg feats i ws total valid = .ok out →
    ∃ (k : ℕ) (wss : List (List ValidationWarning)),
      k ≤ feats.length ∧ wss.length = k ∧
      (∀ j, j < k → validateFeature cfg (feats.getD j .null) (i + j) = .ok (wss.getD j [])) ∧
      out.1 = ws ++ wss.flatten ++ (if k < feats.length then [maxWarningsWarning cfg] else []) ∧
      out.2.1 = total + k ∧
      out.2.2 = valid + (wss.filter featureOk).length ∧
      (k < feats.length → ((ws.length : ℤ) + wss.flatten.length ≥ cfg.max_warnings)) ∧
      (∀ j, j < k → ((ws.length : ℤ) + (wss.take j).flatten.length < cfg.max_warnings)) := by
  intro feats
  induction feats with
  | nil =>
      intro i ws total valid out h
      rw [fcLoop] at h
      cases h
      refine ⟨0, [], ?_, rfl, ?_, ?_, ?_, ?_, ?_, ?_⟩
      · simp
      · intro j hj; exact absurd hj (Nat.not_lt_zero j)
      · simp
      · simp
      · simp
      · intro hlt; simp at hlt
      · intro j hj; exact absurd hj (Nat.not_lt_zero j)
  | cons f rest ih =>
      intro i ws total valid out h
      rw [fcLoop] at h
      by_cases hcut : (ws.length : ℤ) ≥ cfg.max_warnings
      · rw [if_pos hcut] at h
        cases h
        refine ⟨0, [], ?_, rfl, ?_, ?_, ?_, ?_, ?_, ?_⟩
        · simp
        · intro j hj; exact absurd hj (Nat.not_lt_zero j)
        · simp
        · simp
        · simp
        · intro _; simpa using hcut
        · intro j hj; exact absurd hj (Nat.not_lt_zero j)
      · rw [if_neg hcut] at h
        cases hf : validateFeature cfg f i with
        | error e => rw [hf] at h; simp at h
        | ok fws =>
            rw [hf] at h
            simp only [except_bind_ok] at h
            obtain ⟨k, wss, hk, hlen, hidx, hout1, hout2, hout3, hge, hlt⟩ := ih _ _ _ _ _ h
            refine ⟨k + 1, fws :: wss, by simpa using hk, by simpa using hlen,
              ?_, ?_, by simp [hout2]; omega, ?_, ?_, ?_⟩
            · intro j hj
              cases j with
              | zero => simpa using hf
              | succ j2 =>
                  have := hidx j2 (by omega)
                  simpa [Nat.add_assoc, Nat.add_comm 1 j2, Nat.add_left_comm] using this
            · rw [hout1]
              simp only [List.flatten_cons, List.append_assoc, List.length_cons,
                Nat.add_lt_add_iff_right]
            · rw [hout3]
              simp only [List.filter_cons]
              cases hok : featureOk fws
              · simp
              · simp
                omega
            · intro hklt
              simp only [List.length_cons] at hklt
              have := hge (by omega)
              simp only [List.length_append] at this
              simp only [List.flatten_cons, List.length_append, List.length_cons]
              push_cast at this ⊢
              omega
            · intro j hj
              cases j with
              | zero =>
                  simp only [List.take_zero, List.flatten_nil, List.length_nil]
                  omega
              | succ j2 =>
                  have := hlt j2 (by omega)
                  simp only [List.length_append] at this
                  simp only [List.take_succ_cons, List.flatten_cons, List.length_append]
                  push_cast at this ⊢
                  omega

/-- C3: whenever `validate` returns a result on a FeatureCollection, a
prefix of the features was processed in order; as soon as the running
warning count has reached `max_warnings` (and a feature remains), exactly
one `info`-severity `max_warnings_reached` warning is appended and no
later feature contributes to `feature_count`, `valid_feature_count` or
the warning list. -/
theorem validate_max_warnings_cutoff (cfg : VConfig) (feats : List Json)
    (r : ValidationResult) (h : validate cfg (mkFC feats) = .ok r) :
    MaxWarningsCutoffSpec cfg feats r := by
  rw [validate, mkFC] at h
  rw [validateDispatch] at h
  simp only [pyGet, pyGetD, jLookupD, jLookup, String.reduceEq, reduceIte,
    Option.getD_some, except_bind_ok, pyEq_self, if_true, pyIter] at h
  cases hloop : fcLoop cfg feats 0 [] 0 0 with
  | error e => rw [hloop] at h; simp at h
  | ok out =>
      rw [hloop] at h
      simp only [except_bind_ok, except_pure_eq, Except.ok.injEq] at h
      obtain ⟨k, wss, hk, hlen, hidx, hout1, hout2, hout3, hge, hlt⟩ :=
        fcLoop_spec cfg feats 0 [] 0 0 out hloop
      obtain ⟨ws, total, valid⟩ := out
      subst h
      refine ⟨k, wss, hk, hlen, by simpa using hidx, ?_, by simpa using hout2,
        by simpa using hout3, ?_, ?_, rfl, rfl⟩
      · simpa [mkResult] using hout1
      · intro hklt
        simpa using hge hklt
      · intro j hj
        simpa using hlt j hj

/-- The configuration of the spec's `max_warnings` example: budget 5,
shapely unavailable. -/
def c3Cfg : VConfig := { max_warnings := 5 }

/-- One out-of-bounds feature: a `Point` at `[200, 0]`. -/
def c3Feature : Json :=
  .obj [("type", .str "Feature"), ("properties", .obj []),
        ("geometry", .obj [("type", .str "Point"), ("coordinates", .arr [.num 200, .num 0])])]

/-- The result of validating 100 copies of `c3Feature` with
`max_warnings = 5`: five findings, one cutoff notice, five features
counted. -/
def c3Result : ValidationResult :=
  ⟨true,
   ((List.range 5).map fun i =>
     ⟨some i, .null, "out_of_bounds", "Longitude 200 is out of range [-180.0, 180.0]",
      "warning", [("coordinate", .arr [.num 200, .num 0])]⟩) ++ [maxWarningsWarning c3Cfg],
   5, 5⟩

/-- Witness for C3 at the spec's example: `max_warnings = 5` against 100
out-of-bounds features. -/
theorem validate_max_warnings_cutoff_witness :
    MaxWarningsCutoffSpec c3Cfg (List.replicate 100 c3Feature) c3Result :=
  validate_max_warnings_cutoff c3Cfg (List.replicate 100 c3Feature) c3Result rfl

/-!
## Claim C10 — `check_coordinates=False` silences all coordinate findings
-/

theorem pyEq_str (a b : String) : pyEq (.str a) (.str b) = decide (a = b) := by
  by_cases h : a = b <;> simp [pyEq, h]

/-- Every warning the shapely deep-validity path can produce has severity
`warning` or `info` — never `error`. -/
theorem checkShapelyValidity_no_error (cfg : VConfig) (g : Json) (fi : Option ℕ)
    (fid : Json) : ∀ w ∈ checkShapelyValidity cfg g fi fid, w.severity ≠ "error" := by
  intro w hw
  unfold checkShapelyValidity at hw
  cases hsh : cfg.shapely g with
  | raises msg =>
      rw [hsh] at hw
      simp only [List.mem_singleton] at hw
      subst hw
      simp
  | result isValid reason isEmpty =>
      rw [hsh] at hw
      rcases List.mem_append.mp hw with hw2 | hw2
      · cases isValid
        · simp only [Bool.not_false, if_true, List.mem_singleton] at hw2
          subst hw2
          simp
        · simp at hw2
      · cases isEmpty
        · simp at hw2
        · simp only [if_true, List.mem_singleton] at hw2
          subst hw2
          simp

/-- C10: with `check_coordinates = False`, `_validate_coordinate` emits
nothing for any coordinate value whatsoever; hence a `Point` carrying any
malformed coordinate validates with `valid = true`.  Under the default
configuration, the same malformed coordinate (fewer than 2 components) is
an `error`-severity `invalid_coordinate` and flips `valid` to `false`. -/
theorem check_coordinates_off_silences :
    (∀ (cfg : VConfig) (c : Json) (fi : Option ℕ) (fid : Json),
        cfg.check_coordinates = false →
        validateCoordinate cfg c fi fid = .ok []) ∧
    (∀ (cfg : VConfig) (c : Json), cfg.check_coordinates = false →
        ∃ r, validate cfg (.obj [("type", .str "Point"), ("coordinates", c)]) = .ok r ∧
          r.valid = true) ∧
    (∀ (b : Bool) (f : Json → ShapelyOutcome),
        ∃ r, validate { shapely_available := b, shapely := f }
            (.obj [("type", .str "Point"), ("coordinates", .arr [.num 5])]) = .ok r ∧
          r.valid = false ∧
          ∃ w ∈ r.warnings, w.warning_type = "invalid_coordinate" ∧ w.severity = "error") := by
  have part1 : ∀ (cfg : VConfig) (c : Json) (fi : Option ℕ) (fid : Json),
      cfg.check_coordinates = false → validateCoordinate cfg c fi fid = .ok [] := by
    intro cfg c fi fid h
    simp [validateCoordinate, h]
  refine ⟨part1, ?_, ?_⟩
  · intro cfg c h
    have hg : validateGeometry cfg (.obj [("type", Json.str "Point"), ("coordinates", c)])
        (some 0) .null =
        .ok (if cfg.hasShapely then
          checkShapelyValidity cfg (.obj [("type", Json.str "Point"), ("coordinates", c)])
            (some 0) .null else []) := by
      simp only [validateGeometry]
      simp only [jLookupD, jLookup, String.reduceEq, reduceIte, Option.getD_some]
      rw [if_neg (by simp)]
      simp only [validateGeometryNonRec]
      simp only [Json.str.injEq, String.reduceEq, reduceIte, jLookupD, jLookup,
        Option.getD_some]
      rw [part1 cfg c (some 0) .null h]
      cases hs : cfg.hasShapely <;> simp [hs]
    simp only [validate, validateDispatch, pyGet, pyGetD, jLookupD, jLookup,
      String.reduceEq, reduceIte, Option.getD_some, except_bind_ok, pyEq_str,
      decide_False, Bool.false_eq_true, if_false, geometryTypeNames, List.any_cons,
      List.any_nil, decide_True, Bool.or_false, Bool.false_or, if_true]
    rw [hg]
    simp only [except_bind_ok, except_pure_eq, Except.ok.injEq]
    refine ⟨_, rfl, ?_⟩
    simp only [mkResult, beq_iff_eq, List.length_eq_zero, List.filter_eq_nil_iff,
      decide_eq_true_eq]
    cases hs : cfg.hasShapely
    · simp
    · simp only [if_true]
      intro w hw
      have hne := checkShapelyValidity_no_error cfg
        (.obj [("type", Json.str "Point"), ("coordinates", c)]) (some 0) .null w
        (by simpa using hw)
      simpa using hne
  · intro b f
    have hcoord : validateCoordinate { shapely_available := b, shapely := f }
        (.arr [.num 5]) (some 0) .null =
        .ok [⟨some 0, .null, "invalid_coordinate", "Invalid coordinate: [5]", "error", []⟩] := by
      rfl
    have hg : validateGeometry { shapely_available := b, shapely := f }
        (.obj [("type", Json.str "Point"), ("coordinates", .arr [.num 5])]) (some 0) .null =
        .ok ([⟨some 0, .null, "invalid_coordinate", "Invalid coordinate: [5]", "error", []⟩] ++
          (if b then
            checkShapelyValidity { shapely_available := b, shapely := f }
              (.obj [("type", Json.str "Point"), ("coordinates", .arr [.num 5])])
              (some 0) .null else [])) := by
      simp only [validateGeometry]
      simp only [jLookupD, jLookup, String.reduceEq, reduceIte, Option.getD_some]
      rw [if_neg (by simp)]
      simp only [validateGeometryNonRec]
      simp only [Json.str.injEq, String.reduceEq, reduceIte, jLookupD, jLookup,
        Option.getD_some]
      rw [hcoord]
      have hbs : VConfig.hasShapely { shapely_available := b, shapely := f } = b := by
        simp [VConfig.hasShapely]
      cases hb : b
      · subst hb; simp [hbs]
      · subst hb; simp [hbs]
    simp only [validate, validateDispatch, pyGet, pyGetD, jLookupD, jLookup,
      String.reduceEq, reduceIte, Option.getD_some, except_bind_ok, pyEq_str,
      decide_False, Bool.false_eq_true, if_false, geometryTypeNames, List.any_cons,
      List.any_nil, decide_True, Bool.or_false, Bool.false_or, if_true]
    rw [hg]
    simp only [except_bind_ok, except_pure_eq, Except.ok.injEq]
    refine ⟨_, rfl, ?_, ?_⟩
    · simp only [mkResult]
      simp only [List.filter_append, List.filter_cons, List.filter_nil]
      simp
    · refine ⟨⟨some 0, .null, "invalid_coordinate", "Invalid coordinate: [5]", "error", []⟩,
        ?_, rfl, rfl⟩
      simp [mkResult]
/-- Witness for C10: a malformed coordinate under `check_coordinates =
False` (silenced, valid) and under the default configuration (error,
invalid). -/
theorem check_coordinates_off_silences_witness :
    validateCoordinate { check_coordinates := false } (.num 7) (some 0) .null = .ok [] ∧
    (∃ r, validate { check_coordinates := false }
        (.obj [("type", .str "Point"), ("coordinates", .arr [.num 5])]) = .ok r ∧
      r.valid = true) ∧
    (∃ r, validate { shapely_available := false, shapely := fun _ => .raises "" }
        (.obj [("type", .str "Point"), ("coordinates", .arr [.num 5])]) = .ok r ∧
      r.valid = false ∧
      ∃ w ∈ r.warnings, w.warning_type = "invalid_coordinate" ∧ w.severity = "error") :=
  ⟨check_coordinates_off_silences.1 { check_coordinates := false } (.num 7) (some 0) .null rfl,
   check_coordinates_off_silences.2.1 { check_coordinates := false } (.arr [.num 5]) rfl,
   check_coordinates_off_silences.2.2 false (fun _ => .raises "")⟩

/-!
## Claims C7 and C8 — polygon ring winding and duplicate checks
-/

/-- A two-component numeric GeoJSON position. -/
def encodePoint (p : ℚ × ℚ) : Json := .arr [.num p.1, .num p.2]

/-- A polygon ring as JSON: the array of its encoded positions. -/
def encodeRing (r : List (ℚ × ℚ)) : Json := .arr (r.map encodePoint)

theorem encodePoint_inj {p q : ℚ × ℚ} (h : encodePoint p = encodePoint q) : p = q := by
  simp only [encodePoint, Json.arr.injEq, List.cons.injEq, Json.num.injEq, and_true] at h
  exact Prod.ext h.1 h.2

theorem pyEq_encodePoint (p q : ℚ × ℚ) :
    pyEq (encodePoint p) (encodePoint q) = decide (p = q) := by
  by_cases h : p = q
  · simp [h]
  · rw [decide_eq_false h]
    rw [pyEq, decide_eq_false]
    exact fun hc => h (encodePoint_inj hc)

theorem pyLen_encodeRing (r : List (ℚ × ℚ)) :
    pyLen (encodeRing r) = .ok r.length := by
  simp [pyLen, encodeRing]

theorem pyIter_encodeRing (r : List (ℚ × ℚ)) :
    pyIter (encodeRing r) = .ok (r.map encodePoint) := rfl

theorem pyIndex_arr_nonneg (xs : List Json) (i : ℕ) (h : i < xs.length) :
    pyIndex (.arr xs) (i : ℤ) = .ok (xs.getD i .null) := by
  have h0 : ¬((i : ℤ) < 0) := by omega
  rw [pyIndex]
  split
  case isTrue hcond => exact absurd hcond h0
  case isFalse hcond =>
      split
      case isTrue hc2 =>
          have ht : ((i : ℤ)).toNat = i := by omega
          simp only [List.get_eq_getElem, ht]
          rw [List.getD_eq_getElem xs .null h]
      case isFalse hc2 =>
          exfalso
          apply hc2
          constructor <;> omega

theorem pyIndex_arr_neg1 (xs : List Json) (h : xs ≠ []) :
    pyIndex (.arr xs) (-1) = .ok (xs.getD (xs.length - 1) .null) := by
  have hlen : 1 ≤ xs.length := by
    cases xs with
    | nil => exact absurd rfl h
    | cons a l => simp
  rw [pyIndex]
  split
  case isTrue hcond =>
      split
      case isTrue hc2 =>
          have ht : ((-1 : ℤ) + (xs.length : ℤ)).toNat = xs.length - 1 := by omega
          simp only [List.get_eq_getElem, ht]
          rw [List.getD_eq_getElem xs .null (by omega)]
      case isFalse hc2 =>
          exfalso
          apply hc2
          constructor <;> omega
  case isFalse hcond => exact absurd (show (-1 : ℤ) < 0 by omega) hcond

theorem pyIndex_encodeRing (r : List (ℚ × ℚ)) (i : ℕ) (h : i < r.length) :
    pyIndex (encodeRing r) (i : ℤ) = .ok (encodePoint (r.getD i (0, 0))) := by
  rw [encodeRing, pyIndex_arr_nonneg (r.map encodePoint) i (by simpa using h)]
  congr 1
  rw [List.getD_eq_getElem (r.map encodePoint) .null (by simpa using h),
    List.getElem_map, ← List.getD_eq_getElem r (0, 0) h]

theorem pyIndex_encodeRing_neg1 (r : List (ℚ × ℚ)) (h : r ≠ []) :
    pyIndex (encodeRing r) (-1) = .ok (encodePoint (r.getD (r.length - 1) (0, 0))) := by
  have hlen : 1 ≤ r.length := by
    cases r with
    | nil => exact absurd rfl h
    | cons a l => simp
  rw [encodeRing, pyIndex_arr_neg1 (r.map encodePoint) (by simpa using h)]
  congr 1
  simp only [List.length_map]
  rw [List.getD_eq_getElem (r.map encodePoint) .null (by simp; omega),
    List.getElem_map, ← List.getD_eq_getElem r (0, 0) (by omega)]
theorem foldlM_ok {α β : Type} {f : β → α → Except PyErr β} {fb : β → α → β} :
    ∀ (l : List α), (∀ b a, a ∈ l → f b a = .ok (fb b a)) →
      ∀ init, l.foldlM f init = .ok (l.foldl fb init) := by
  intro l
  induction l with
  | nil => intro _ init; rfl
  | cons a l ih =>
      intro h init
      rw [List.foldlM_cons, h init a (List.mem_cons_self a l)]
      simp only [except_bind_ok]
      rw [ih (fun b x hx => h b x (List.mem_cons_of_mem a hx)) (fb init a)]
      rfl

theorem mapM_ok {α β : Type} {f : α → Except PyErr β} {fb : α → β} :
    ∀ (l : List α), (∀ a ∈ l, f a = .ok (fb a)) → l.mapM f = .ok (l.map fb) := by
  intro l
  induction l with
  | nil => intro _; rfl
  | cons a l ih =>
      intro h
      rw [List.mapM_cons, h a (List.mem_cons_self a l)]
      simp only [except_bind_ok]
      rw [ih fun x hx => h x (List.mem_cons_of_mem a hx)]
      rfl

/-- The indices the duplicate scan collects, computed directly over the
typed ring. -/
def specDups (r : List (ℚ × ℚ)) : List ℕ :=
  (List.range' 1 (r.length - 1)).foldl
    (fun dups i => if r.getD i (0, 0) = r.getD (i - 1) (0, 0) then dups ++ [i] else dups) []

theorem pyIndex_encodePoint0 (p : ℚ × ℚ) :
    pyIndex (encodePoint p) 0 = .ok (.num p.1) := rfl

theorem pyIndex_encodePoint1 (p : ℚ × ℚ) :
    pyIndex (encodePoint p) 1 = .ok (.num p.2) := rfl

theorem findConsecutiveDuplicates_encode (r : List (ℚ × ℚ)) :
    findConsecutiveDuplicates (encodeRing r) = .ok (specDups r) := by
  rw [findConsecutiveDuplicates, pyLen_encodeRing]
  simp only [except_bind_ok]
  have hstep : ∀ (dups : List ℕ) (i : ℕ), i ∈ List.range' 1 (r.length - 1) →
      (do
        let a ← pyIndex (encodeRing r) (i : ℤ)
        let b ← pyIndex (encodeRing r) ((i : ℤ) - 1)
        pure (if pyEq a b then dups ++ [i] else dups) : Except PyErr (List ℕ)) =
      .ok (if r.getD i (0, 0) = r.getD (i - 1) (0, 0) then dups ++ [i] else dups) := by
    intro dups i hi
    have hmem := List.mem_range'_1.mp hi
    have hi1 : i < r.length := by omega
    have hi2 : i - 1 < r.length := by omega
    have hcast : (i : ℤ) - 1 = ((i - 1 : ℕ) : ℤ) := by omega
    rw [pyIndex_encodeRing r i hi1, except_bind_ok, hcast,
      pyIndex_encodeRing r (i - 1) hi2, except_bind_ok, pyEq_encodePoint]
    simp only [except_pure_eq, decide_eq_true_eq]
  rw [foldlM_ok _ hstep []]
  rfl
/-- Modelled from the spec: the shoelace sum `Σ (x2 - x1) * (y2 + y1)`
over consecutive vertex pairs of a ring. -/
def specShoelace : List (ℚ × ℚ) → ℚ
  | p :: q :: rest => (q.1 - p.1) * (q.2 + p.2) + specShoelace (q :: rest)
  | _ => 0

/-- The shoelace loop of `_is_counterclockwise`, computed directly over
the typed ring (index-based, mirroring `for i in range(n - 1)`). -/
def shoelaceFold (r : List (ℚ × ℚ)) : ℚ :=
  (List.range (r.length - 1)).foldl
    (fun acc i =>
      acc + ((r.getD (i + 1) (0, 0)).1 - (r.getD i (0, 0)).1) *
        ((r.getD (i + 1) (0, 0)).2 + (r.getD i (0, 0)).2)) 0

theorem foldl_add_eq_sum (g : ℕ → ℚ) :
    ∀ (l : List ℕ) (c : ℚ), l.foldl (fun acc i => acc + g i) c = c + (l.map g).sum := by
  intro l
  induction l with
  | nil => intro c; simp
  | cons a l ih =>
      intro c
      rw [List.foldl_cons, ih (c + g a)]
      simp [add_assoc]

theorem shoelaceFold_eq_spec : ∀ r : List (ℚ × ℚ), shoelaceFold r = specShoelace r := by
  have key : ∀ r : List (ℚ × ℚ),
      ((List.range (r.length - 1)).map fun i =>
        ((r.getD (i + 1) (0, 0)).1 - (r.getD i (0, 0)).1) *
          ((r.getD (i + 1) (0, 0)).2 + (r.getD i (0, 0)).2)).sum = specShoelace r := by
    intro r
    induction r with
    | nil => simp [specShoelace]
    | cons p rest ih =>
        cases rest with
        | nil => simp [specShoelace]
        | cons q rest2 =>
            rw [show (p :: q :: rest2).length - 1 = rest2.length + 1 by simp]
            rw [List.range_succ_eq_map, List.map_cons, List.sum_cons, List.map_map]
            rw [show ((q :: rest2).length - 1) = rest2.length by simp] at ih
            rw [specShoelace, ← ih]
            simp only [Function.comp_def, List.getD_cons_succ, List.getD_cons_zero]
  intro r
  rw [shoelaceFold, foldl_add_eq_sum, zero_add, key]

theorem isCounterclockwise_encode (r : List (ℚ × ℚ)) :
    isCounterclockwise (encodeRing r) = .ok (decide (specShoelace r < 0)) := by
  rw [isCounterclockwise, pyLen_encodeRing]
  simp only [except_bind_ok]
  have hstep : ∀ (acc : ℚ) (i : ℕ), i ∈ List.range (r.length - 1) →
      (do
        let p1 ← pyIndex (encodeRing r) (i : ℤ)
        let p2 ← pyIndex (encodeRing r) ((i : ℤ) + 1)
        let x1 ← toNumQ (← pyIndex p1 0)
        let y1 ← toNumQ (← pyIndex p1 1)
        let x2 ← toNumQ (← pyIndex p2 0)
        let y2 ← toNumQ (← pyIndex p2 1)
        pure (acc + (x2 - x1) * (y2 + y1)) : Except PyErr ℚ) =
      .ok (acc + ((r.getD (i + 1) (0, 0)).1 - (r.getD i (0, 0)).1) *
        ((r.getD (i + 1) (0, 0)).2 + (r.getD i (0, 0)).2)) := by
    intro acc i hi
    have hmem := List.mem_range.mp hi
    have hi1 : i < r.length := by omega
    have hi2 : i + 1 < r.length := by omega
    have hcast : (i : ℤ) + 1 = ((i + 1 : ℕ) : ℤ) := by omega
    rw [pyIndex_encodeRing r i hi1, except_bind_ok,
      hcast, pyIndex_encodeRing r (i + 1) hi2, except_bind_ok]
    rw [pyIndex_encodePoint0, except_bind_ok, pyIndex_encodePoint1]
    rw [pyIndex_encodePoint0, pyIndex_encodePoint1]
    rfl
  rw [foldlM_ok _ hstep 0]
  simp only [except_pure_eq, Except.ok.injEq]
  rw [show ((List.range (r.length - 1)).foldl
      (fun acc i =>
        acc + ((r.getD (i + 1) (0, 0)).1 - (r.getD i (0, 0)).1) *
          ((r.getD (i + 1) (0, 0)).2 + (r.getD i (0, 0)).2)) 0) = shoelaceFold r from rfl]
  rw [shoelaceFold_eq_spec]
  rfl

/-- The warnings `_validate_coordinate` produces on a two-component
numeric position, computed directly over the typed point. -/
def coordWarnings (cfg : VConfig) (p : ℚ × ℚ) (fi : Option ℕ) (fid : Json) :
    List ValidationWarning :=
  if !cfg.check_coordinates then []
  else
    (if decide ((-180 : ℚ) ≤ p.1) && decide (p.1 ≤ 180) then [] else
      [⟨fi, fid, "out_of_bounds",
        "Longitude " ++ pyStr (.num p.1) ++ " is out of range [-180.0, 180.0]",
        "warning", [("coordinate", encodePoint p)]⟩]) ++
    (if decide ((-90 : ℚ) ≤ p.2) && decide (p.2 ≤ 90) then [] else
      [⟨fi, fid, "out_of_bounds",
        "Latitude " ++ pyStr (.num p.2) ++ " is out of range [-90.0, 90.0]",
        "warning", [("coordinate", encodePoint p)]⟩])

theorem pyTruthy_encodePoint (p : ℚ × ℚ) : pyTruthy (encodePoint p) = true := rfl

theorem pyLen_encodePoint (p : ℚ × ℚ) : pyLen (encodePoint p) = .ok 2 := rfl

theorem pyLe_num (a b : ℚ) : pyLe (.num a) (.num b) = .ok (decide (a ≤ b)) := rfl

theorem validateCoordinate_encodePoint (cfg : VConfig) (p : ℚ × ℚ) (fi : Option ℕ)
    (fid : Json) :
    validateCoordinate cfg (encodePoint p) fi fid = .ok (coordWarnings cfg p fi fid) := by
  cases hc : cfg.check_coordinates
  · simp [validateCoordinate, coordWarnings, hc]
  · by_cases h1 : (-180 : ℚ) ≤ p.1 <;> by_cases h2 : p.1 ≤ 180 <;>
      by_cases h3 : (-90 : ℚ) ≤ p.2 <;> by_cases h4 : p.2 ≤ 90 <;>
      simp [validateCoordinate, coordWarnings, hc, pyTruthy_encodePoint,
        pyLen_encodePoint, pyLe_num, pyIndex_encodePoint0, pyIndex_encodePoint1,
        h1, h2, h3, h4]


theorem pyIndex_encodeRing_zero (r : List (ℚ × ℚ)) (h : r ≠ []) :
    pyIndex (encodeRing r) 0 = .ok (encodePoint (r.getD 0 (0, 0))) := by
  have hlen : 0 < r.length := List.length_pos.mpr h
  exact pyIndex_encodeRing r 0 hlen

theorem except_bind_ite {c : Prop} [Decidable c] {α β : Type} (x y : Except PyErr α)
    (k : α → Except PyErr β) :
    ((if c then x else y) >>= k) = if c then x >>= k else y >>= k := by
  split <;> rfl

theorem mapM_validateCoordinate (cfg : VConfig) (fi : Option ℕ) (fid : Json) :
    ∀ r : List (ℚ × ℚ),
      (r.map encodePoint).mapM (fun c => validateCoordinate cfg c fi fid) =
        .ok (r.map fun p => coordWarnings cfg p fi fid) := by
  intro r
  induction r with
  | nil => rfl
  | cons p rest ih =>
      rw [List.map_cons, List.mapM_cons, validateCoordinate_encodePoint, except_bind_ok, ih]
      rfl

/-- The warnings one iteration of the `_validate_polygon` ring loop produces
on an encoded ring of rational points, computed directly over the typed
ring. -/
def ringWarnings (cfg : VConfig) (ringIndex : ℕ) (r : List (ℚ × ℚ))
    (fi : Option ℕ) (fid : Json) : List ValidationWarning :=
  if r.length < 4 then
    [⟨fi, fid, "insufficient_coordinates",
      "Polygon " ++ ringLabel ringIndex ++ " ring has " ++ toString r.length ++
        " points, needs 4", "error", []⟩]
  else
    (if cfg.check_closure then
      (if ¬r.getD 0 (0, 0) = r.getD (r.length - 1) (0, 0) then
        [⟨fi, fid, "unclosed_ring",
          "Polygon " ++ ringLabel ringIndex ++ " ring is not closed", "warning",
          [("first", encodePoint (r.getD 0 (0, 0))),
           ("last", encodePoint (r.getD (r.length - 1) (0, 0)))]⟩]
       else [])
     else []) ++
    (r.map fun p => coordWarnings cfg p fi fid).flatten ++
    (if cfg.check_duplicates then
      (let dups := if r.getD 0 (0, 0) = r.getD (r.length - 1) (0, 0) ∧
            (specDups r).contains (r.length - 1) = true
          then (specDups r).erase (r.length - 1) else specDups r
       if dups.isEmpty = false then
        [⟨fi, fid, "duplicate_vertices",
          "Polygon " ++ ringLabel ringIndex ++ " ring has " ++ toString dups.length ++
            " duplicate vertices", "info", []⟩]
       else [])
     else []) ++
    (if cfg.check_winding then
      (if ringIndex = 0 ∧ specShoelace r < 0 then
        [⟨fi, fid, "wrong_winding",
          "Exterior ring should be clockwise (RFC 7946)", "info", []⟩]
       else if 0 < ringIndex ∧ ¬specShoelace r < 0 then
        [⟨fi, fid, "wrong_winding",
          "Hole " ++ toString ringIndex ++ " should be counter-clockwise (RFC 7946)",
          "info", []⟩]
       else [])
     else [])

set_option maxHeartbeats 2000000 in
theorem validatePolygonRing_encode (cfg : VConfig) (ringIndex : ℕ) (r : List (ℚ × ℚ))
    (fi : Option ℕ) (fid : Json) :
    validatePolygonRing cfg ringIndex (encodeRing r) fi fid =
      .ok (ringWarnings cfg ringIndex r fi fid) := by
  by_cases h4 : r.length < 4
  · simp [validatePolygonRing, ringWarnings, pyLen_encodeRing, h4]
  · have hne : r ≠ [] := by
      intro h
      rw [h] at h4
      exact h4 (by simp)
    have h4' : 4 ≤ r.length := Nat.le_of_not_lt h4
    cases hclo : cfg.check_closure <;> cases hdup : cfg.check_duplicates <;>
      cases hwin : cfg.check_winding <;>
      simp only [validatePolygonRing, ringWarnings, pyLen_encodeRing, except_bind_ok,
        if_neg h4, except_bind_ite, pyIndex_encodeRing_zero r hne,
        pyIndex_encodeRing_neg1 r hne, pyIter_encodeRing,
        mapM_validateCoordinate, findConsecutiveDuplicates_encode,
        isCounterclockwise_encode, pyEq_encodePoint, except_pure_eq,
        decide_eq_true_eq, Bool.and_eq_true, Bool.not_eq_true',
        decide_eq_false_iff_not, h4', decide_True, Bool.and_true, Bool.true_and,
        and_true, hclo, hdup, hwin, Bool.false_eq_true, if_false, if_true,
        List.append_nil, List.nil_append] <;>
      generalize (List.map (fun p => coordWarnings cfg p fi fid) r).flatten = B <;>
      generalize r.length - 1 = m <;>
      generalize r.getD 0 (0, 0) = a <;>
      generalize r.getD m (0, 0) = b <;>
      generalize specDups r = D <;>
      generalize specShoelace r = S <;>
      split_ifs <;> simp_all [List.append_assoc]

theorem coordWarnings_type (cfg : VConfig) (p : ℚ × ℚ) (fi : Option ℕ) (fid : Json) :
    ∀ w ∈ coordWarnings cfg p fi fid, w.warning_type = "out_of_bounds" := by
  intro w hw
  rw [coordWarnings] at hw
  split_ifs at hw <;>
    simp only [List.mem_append, List.mem_singleton, List.not_mem_nil, or_false,
      false_or, List.nil_append, List.append_nil] at hw <;>
    first
      | exact hw.elim
      | (rcases hw with rfl | rfl <;> rfl)

theorem ringWarnings_filter_winding (cfg : VConfig) (ringIndex : ℕ) (r : List (ℚ × ℚ))
    (fi : Option ℕ) (fid : Json) (hwin : cfg.check_winding = true) (h4 : 4 ≤ r.length) :
    (ringWarnings cfg ringIndex r fi fid).filter
        (fun w => decide (w.warning_type = "wrong_winding")) =
      (if ringIndex = 0 ∧ specShoelace r < 0 then
        [⟨fi, fid, "wrong_winding", "Exterior ring should be clockwise (RFC 7946)",
          "info", []⟩]
      else if 0 < ringIndex ∧ ¬specShoelace r < 0 then
        [⟨fi, fid, "wrong_winding",
          "Hole " ++ toString ringIndex ++ " should be counter-clockwise (RFC 7946)",
          "info", []⟩]
      else []) := by
  have hcoord : (List.map (fun p => coordWarnings cfg p fi fid) r).flatten.filter
      (fun w => decide (w.warning_type = "wrong_winding")) = [] := by
    rw [List.filter_eq_nil_iff]
    intro w hw
    simp only [List.mem_flatten, List.mem_map] at hw
    obtain ⟨l, ⟨p, hp, rfl⟩, hwl⟩ := hw
    have ht := coordWarnings_type cfg p fi fid w hwl
    simp [ht]
  rw [ringWarnings, if_neg (Nat.not_lt.mpr h4)]
  simp only [List.filter_append, hcoord, hwin, if_true, List.nil_append,
    List.append_nil]
  split_ifs <;> rfl

theorem ringWarnings_filter_dup (cfg : VConfig) (ringIndex : ℕ) (r : List (ℚ × ℚ))
    (fi : Option ℕ) (fid : Json) (hdup : cfg.check_duplicates = true) (h4 : 4 ≤ r.length) :
    (ringWarnings cfg ringIndex r fi fid).filter
        (fun w => decide (w.warning_type = "duplicate_vertices")) =
      (if (if r.getD 0 (0, 0) = r.getD (r.length - 1) (0, 0)
            then (specDups r).erase (r.length - 1) else specDups r) = [] then []
       else
        [⟨fi, fid, "duplicate_vertices",
          "Polygon " ++ ringLabel ringIndex ++ " ring has " ++
            toString (if r.getD 0 (0, 0) = r.getD (r.length - 1) (0, 0)
              then (specDups r).erase (r.length - 1) else specDups r).length ++
            " duplicate vertices", "info", []⟩]) := by
  have hcoord : (List.map (fun p => coordWarnings cfg p fi fid) r).flatten.filter
      (fun w => decide (w.warning_type = "duplicate_vertices")) = [] := by
    rw [List.filter_eq_nil_iff]
    intro w hw
    simp only [List.mem_flatten, List.mem_map] at hw
    obtain ⟨l, ⟨p, hp, rfl⟩, hwl⟩ := hw
    have ht := coordWarnings_type cfg p fi fid w hwl
    simp [ht]
  have herase : (if r.getD 0 (0, 0) = r.getD (r.length - 1) (0, 0) ∧
        (specDups r).contains (r.length - 1) = true
      then (specDups r).erase (r.length - 1) else specDups r) =
      (if r.getD 0 (0, 0) = r.getD (r.length - 1) (0, 0)
        then (specDups r).erase (r.length - 1) else specDups r) := by
    by_cases hab : r.getD 0 (0, 0) = r.getD (r.length - 1) (0, 0)
    · by_cases hct : (specDups r).contains (r.length - 1) = true
      · rw [if_pos ⟨hab, hct⟩, if_pos hab]
      · rw [if_neg (fun h => hct h.2), if_pos hab]
        have hnm : r.length - 1 ∉ specDups r := fun hm => hct (by simpa using hm)
        rw [List.erase_of_not_mem hnm]
    · rw [if_neg (fun h => hab h.1), if_neg hab]
  have hempty : ∀ l : List ℕ, (l.isEmpty = false) ↔ ¬(l = []) := by
    intro l
    simp [List.isEmpty_iff]
  rw [ringWarnings, if_neg (Nat.not_lt.mpr h4)]
  simp only [List.filter_append, hcoord, hdup, if_true, List.nil_append,
    List.append_nil, herase, hempty]
  split_ifs <;> rfl

/-- **C7.** For a polygon ring with at least 4 points examined with winding
checking enabled, `_is_counterclockwise` computes the shoelace sum
`Σ (x2 - x1) * (y2 + y1)` over consecutive vertex pairs and deems the ring
counter-clockwise iff that sum is negative; the ring loop of
`_validate_polygon` emits a `wrong_winding` warning, always of severity
`info`, exactly when the exterior ring (index 0) is counter-clockwise or a
hole (index ≥ 1) is clockwise. -/
theorem polygon_winding_check (cfg : VConfig) (ringIndex : ℕ) (r : List (ℚ × ℚ))
    (fi : Option ℕ) (fid : Json) (hwin : cfg.check_winding = true) (h4 : 4 ≤ r.length) :
    isCounterclockwise (encodeRing r) = .ok (decide (specShoelace r < 0)) ∧
    validatePolygonRing cfg ringIndex (encodeRing r) fi fid =
      .ok (ringWarnings cfg ringIndex r fi fid) ∧
    (ringWarnings cfg ringIndex r fi fid).filter
        (fun w => decide (w.warning_type = "wrong_winding")) =
      (if ringIndex = 0 ∧ specShoelace r < 0 then
        [⟨fi, fid, "wrong_winding", "Exterior ring should be clockwise (RFC 7946)",
          "info", []⟩]
      else if 0 < ringIndex ∧ ¬specShoelace r < 0 then
        [⟨fi, fid, "wrong_winding",
          "Hole " ++ toString ringIndex ++ " should be counter-clockwise (RFC 7946)",
          "info", []⟩]
      else []) ∧
    ∀ w ∈ ringWarnings cfg ringIndex r fi fid,
      w.warning_type = "wrong_winding" → w.severity = "info" := by
  have hfil := ringWarnings_filter_winding cfg ringIndex r fi fid hwin h4
  refine ⟨isCounterclockwise_encode r,
    validatePolygonRing_encode cfg ringIndex r fi fid, hfil, ?_⟩
  intro w hw hty
  have hwf : w ∈ (ringWarnings cfg ringIndex r fi fid).filter
      (fun w => decide (w.warning_type = "wrong_winding")) :=
    List.mem_filter.mpr ⟨hw, by simp [hty]⟩
  rw [hfil] at hwf
  split_ifs at hwf <;> simp only [List.mem_singleton, List.not_mem_nil] at hwf
  · rw [hwf]
  · rw [hwf]

def c7Ring : List (ℚ × ℚ) := [(0, 0), (1, 0), (1, 1), (0, 1), (0, 0)]

theorem polygon_winding_check_witness :
    VConfig.check_winding {} = true ∧ 4 ≤ c7Ring.length ∧
    validatePolygonRing {} 0 (encodeRing c7Ring) none .null =
      .ok (ringWarnings {} 0 c7Ring none .null) ∧
    (ringWarnings {} 0 c7Ring none .null).filter
        (fun w => decide (w.warning_type = "wrong_winding")) =
      [⟨none, .null, "wrong_winding", "Exterior ring should be clockwise (RFC 7946)",
        "info", []⟩] := by
  have h := polygon_winding_check {} 0 c7Ring none .null rfl (by decide)
  refine ⟨rfl, by decide, h.2.1, ?_⟩
  rw [h.2.2.1]
  norm_num [c7Ring, specShoelace]

/-- **C8.** For a polygon ring with at least 4 points examined with duplicate
checking enabled, the consecutive-duplicate scan excludes the intentional
closing duplicate (when `ring[0] == ring[-1]`) and a `duplicate_vertices`
warning, always of severity `info`, is emitted iff duplicates remain after
that exclusion; in particular a closed ring whose only repeated adjacent
pair is the closing point yields no `duplicate_vertices` warning. -/
theorem polygon_duplicate_check (cfg : VConfig) (ringIndex : ℕ) (r : List (ℚ × ℚ))
    (fi : Option ℕ) (fid : Json) (hdup : cfg.check_duplicates = true) (h4 : 4 ≤ r.length) :
    findConsecutiveDuplicates (encodeRing r) = .ok (specDups r) ∧
    validatePolygonRing cfg ringIndex (encodeRing r) fi fid =
      .ok (ringWarnings cfg ringIndex r fi fid) ∧
    (ringWarnings cfg ringIndex r fi fid).filter
        (fun w => decide (w.warning_type = "duplicate_vertices")) =
      (if (if r.getD 0 (0, 0) = r.getD (r.length - 1) (0, 0)
            then (specDups r).erase (r.length - 1) else specDups r) = [] then []
       else
        [⟨fi, fid, "duplicate_vertices",
          "Polygon " ++ ringLabel ringIndex ++ " ring has " ++
            toString (if r.getD 0 (0, 0) = r.getD (r.length - 1) (0, 0)
              then (specDups r).erase (r.length - 1) else specDups r).length ++
            " duplicate vertices", "info", []⟩]) ∧
    (∀ w ∈ ringWarnings cfg ringIndex r fi fid,
      w.warning_type = "duplicate_vertices" → w.severity = "info") ∧
    (r.getD 0 (0, 0) = r.getD (r.length - 1) (0, 0) → specDups r = [r.length - 1] →
      (ringWarnings cfg ringIndex r fi fid).filter
        (fun w => decide (w.warning_type = "duplicate_vertices")) = []) := by
  have hfil := ringWarnings_filter_dup cfg ringIndex r fi fid hdup h4
  refine ⟨findConsecutiveDuplicates_encode r,
    validatePolygonRing_encode cfg ringIndex r fi fid, hfil, ?_, ?_⟩
  · intro w hw hty
    have hwf : w ∈ (ringWarnings cfg ringIndex r fi fid).filter
        (fun w => decide (w.warning_type = "duplicate_vertices")) :=
      List.mem_filter.mpr ⟨hw, by simp [hty]⟩
    rw [hfil] at hwf
    split_ifs at hwf <;>
      simp only [List.mem_singleton, List.not_mem_nil] at hwf <;>
      rw [hwf]
  · intro hcl honly
    rw [hfil, honly, if_pos hcl, List.erase_cons_head, if_pos rfl]

def c8Ring : List (ℚ × ℚ) := [(0, 0), (0, 1), (1, 1), (0, 0), (0, 0)]

theorem polygon_duplicate_check_witness :
    VConfig.check_duplicates {} = true ∧ 4 ≤ c8Ring.length ∧
    specDups c8Ring = [c8Ring.length - 1] ∧
    c8Ring.getD 0 (0, 0) = c8Ring.getD (c8Ring.length - 1) (0, 0) ∧
    (ringWarnings {} 0 c8Ring none .null).filter
        (fun w => decide (w.warning_type = "duplicate_vertices")) = [] := by
  have h := polygon_duplicate_check {} 0 c8Ring none .null rfl (by decide)
  exact ⟨rfl, by decide, by decide, by decide, h.2.2.2.2 (by decide) (by decide)⟩

/-!
## Claim C5 — exception behaviour of `validate`

`validate` raises on garbage (`geojson.get` on a non-dict raises
`AttributeError`), refuting the unconditional claim.  The amended claim is
totality on well-typed GeoJSON values; the grammar below encodes those
values and the theorems show `validate` returns `.ok` on every one of
them, for every configuration.
-/

/-- A numeric position: a JSON array of numbers (of any length). -/
def encodeCoord (qs : List ℚ) : Json := .arr (qs.map Json.num)

theorem pyLen_encodeCoord (qs : List ℚ) : pyLen (encodeCoord qs) = .ok qs.length := by
  simp [pyLen, encodeCoord]

theorem pyIndex_encodeCoord (qs : List ℚ) (i : ℕ) (h : i < qs.length) :
    pyIndex (encodeCoord qs) (i : ℤ) = .ok (.num (qs.getD i 0)) := by
  rw [encodeCoord, pyIndex_arr_nonneg (qs.map Json.num) i (by simpa using h)]
  congr 1
  rw [List.getD_eq_getElem (qs.map Json.num) .null (by simpa using h),
    List.getElem_map, ← List.getD_eq_getElem qs 0 h]

theorem validateCoordinate_encodeCoord_ok (cfg : VConfig) (qs : List ℚ) (fi : Option ℕ)
    (fid : Json) : ∃ ws, validateCoordinate cfg (encodeCoord qs) fi fid = .ok ws := by
  cases hc : cfg.check_coordinates
  · exact ⟨[], by simp [validateCoordinate, hc]⟩
  · by_cases ht : pyTruthy (encodeCoord qs) = true
    · by_cases hn : qs.length < 2
      · simp only [validateCoordinate, hc, ht, pyLen_encodeCoord, except_bind_ok,
          if_pos hn, Bool.not_true, Bool.false_eq_true, if_false, except_pure_eq]
        exact ⟨_, rfl⟩
      · have h0 : pyIndex (encodeCoord qs) 0 = .ok (.num (qs.getD 0 0)) :=
          pyIndex_encodeCoord qs 0 (by omega)
        have h1 : pyIndex (encodeCoord qs) 1 = .ok (.num (qs.getD 1 0)) :=
          pyIndex_encodeCoord qs 1 (by omega)
        simp only [validateCoordinate, hc, ht, pyLen_encodeCoord, except_bind_ok,
          if_neg hn, h0, h1, pyLe_num, except_bind_ite, except_pure_eq,
          Bool.not_true, Bool.false_eq_true, if_false]
        split_ifs <;> exact ⟨_, rfl⟩
    · simp only [Bool.not_eq_true] at ht
      simp only [validateCoordinate, hc, ht, Bool.not_false, if_true, Bool.not_true,
        Bool.false_eq_true, if_false, except_pure_eq]
      exact ⟨_, rfl⟩

theorem mapM_exists_ok {α β : Type} {f : α → Except PyErr β} :
    ∀ (l : List α), (∀ a ∈ l, ∃ b, f a = .ok b) → ∃ bs, l.mapM f = .ok bs := by
  intro l
  induction l with
  | nil => exact fun _ => ⟨[], rfl⟩
  | cons a l ih =>
      intro h
      obtain ⟨b, hb⟩ := h a (List.mem_cons_self a l)
      obtain ⟨bs, hbs⟩ := ih fun x hx => h x (List.mem_cons_of_mem a hx)
      refine ⟨b :: bs, ?_⟩
      rw [List.mapM_cons, hb, except_bind_ok, hbs, except_bind_ok]
      rfl

theorem foldlM_exists_ok {α β : Type} {f : β → α → Except PyErr β} :
    ∀ (l : List α), (∀ b a, a ∈ l → ∃ c, f b a = .ok c) →
      ∀ init, ∃ r, l.foldlM f init = .ok r := by
  intro l
  induction l with
  | nil => exact fun _ init => ⟨init, rfl⟩
  | cons a l ih =>
      intro h init
      obtain ⟨c, hc⟩ := h init a (List.mem_cons_self a l)
      obtain ⟨r, hr⟩ := ih (fun b x hx => h b x (List.mem_cons_of_mem a hx)) c
      refine ⟨r, ?_⟩
      rw [List.foldlM_cons, hc, except_bind_ok, hr]

theorem findConsecutiveDuplicates_arr_ok (xs : List Json) :
    ∃ ds, findConsecutiveDuplicates (.arr xs) = .ok ds := by
  rw [findConsecutiveDuplicates]
  simp only [pyLen, except_bind_ok]
  refine foldlM_exists_ok _ ?_ []
  intro dups i hi
  have hmem := List.mem_range'_1.mp hi
  have hi1 : i < xs.length := by omega
  have hi2 : i - 1 < xs.length := by omega
  have hcast : (i : ℤ) - 1 = ((i - 1 : ℕ) : ℤ) := by omega
  rw [pyIndex_arr_nonneg xs i hi1, except_bind_ok, hcast,
    pyIndex_arr_nonneg xs (i - 1) hi2, except_bind_ok]
  exact ⟨_, rfl⟩

theorem validateLineString_arr_ok (cfg : VConfig) (cs : List (List ℚ)) (fi : Option ℕ)
    (fid : Json) :
    ∃ ws, validateLineString cfg (.arr (cs.map encodeCoord)) fi fid = .ok ws := by
  by_cases hn : cs.length < 2
  · rw [validateLineString]
    simp only [pyLen, List.length_map, except_bind_ok, if_pos hn, except_pure_eq]
    exact ⟨_, rfl⟩
  · obtain ⟨cws, hcws⟩ :=
      mapM_exists_ok (f := fun c => validateCoordinate cfg c fi fid) (cs.map encodeCoord)
        (by
          intro a ha
          obtain ⟨qs, hqs, rfl⟩ := List.mem_map.mp ha
          exact validateCoordinate_encodeCoord_ok cfg qs fi fid)
    obtain ⟨ds, hds⟩ := findConsecutiveDuplicates_arr_ok (cs.map encodeCoord)
    rw [validateLineString]
    simp only [pyLen, List.length_map, except_bind_ok, if_neg hn, pyIter, hcws, hds,
      except_bind_ite, except_pure_eq]
    split_ifs <;> exact ⟨_, rfl⟩

theorem mem_enumFrom_snd {α : Type} :
    ∀ (l : List α) (n : ℕ) (p : ℕ × α), p ∈ l.enumFrom n → p.2 ∈ l := by
  intro l
  induction l with
  | nil => intro n p hp; exact absurd hp (List.not_mem_nil p)
  | cons a l ih =>
      intro n p hp
      rcases List.mem_cons.mp hp with h | h
      · rw [h]; exact List.mem_cons_self a l
      · exact List.mem_cons_of_mem a (ih (n + 1) p h)

theorem validatePolygon_arr_ok (cfg : VConfig) (rs : List (List (ℚ × ℚ))) (fi : Option ℕ)
    (fid : Json) :
    ∃ ws, validatePolygon cfg (.arr (rs.map encodeRing)) fi fid = .ok ws := by
  by_cases ht : pyTruthy (.arr (rs.map encodeRing)) = true
  · obtain ⟨wss, hwss⟩ :=
      mapM_exists_ok (f := fun ri : ℕ × Json => validatePolygonRing cfg ri.1 ri.2 fi fid)
        (rs.map encodeRing).enum
        (by
          intro a ha
          have h2 := mem_enumFrom_snd (rs.map encodeRing) 0 a ha
          obtain ⟨r, hr, henc⟩ := List.mem_map.mp h2
          refine ⟨ringWarnings cfg a.1 r fi fid, ?_⟩
          show validatePolygonRing cfg a.1 a.2 fi fid = _
          rw [← henc]
          exact validatePolygonRing_encode cfg a.1 r fi fid)
    rw [validatePolygon]
    simp only [ht, Bool.not_true, Bool.false_eq_true, if_false, pyIter, except_bind_ok,
      hwss, except_pure_eq]
    exact ⟨_, rfl⟩
  · rw [validatePolygon]
    simp only [Bool.not_eq_true] at ht
    simp only [ht, Bool.not_false, if_true, except_pure_eq]
    exact ⟨_, rfl⟩

mutual

/-- Typed GeoJSON geometries (the well-formed shapes of §3/§4.2): numeric
positions, per-kind coordinate nesting, and `GeometryCollection`
children. -/
inductive Geom where
  | point (c : List ℚ) : Geom
  | multiPoint (cs : List (List ℚ)) : Geom
  | lineString (cs : List (List ℚ)) : Geom
  | multiLineString (ls : List (List (List ℚ))) : Geom
  | polygon (rs : List (List (ℚ × ℚ))) : Geom
  | multiPolygon (ps : List (List (List (ℚ × ℚ)))) : Geom
  | collection (gs : GeomList) : Geom

/-- Children of a `GeometryCollection`. -/
inductive GeomList where
  | nil : GeomList
  | cons (g : Geom) (gs : GeomList) : GeomList

end

mutual

/-- The JSON value of a typed geometry. -/
def Geom.encode : Geom → Json
  | .point c => .obj [("type", .str "Point"), ("coordinates", encodeCoord c)]
  | .multiPoint cs => .obj [("type", .str "MultiPoint"),
      ("coordinates", .arr (cs.map encodeCoord))]
  | .lineString cs => .obj [("type", .str "LineString"),
      ("coordinates", .arr (cs.map encodeCoord))]
  | .multiLineString ls => .obj [("type", .str "MultiLineString"),
      ("coordinates", .arr (ls.map fun l => .arr (l.map encodeCoord)))]
  | .polygon rs => .obj [("type", .str "Polygon"),
      ("coordinates", .arr (rs.map encodeRing))]
  | .multiPolygon ps => .obj [("type", .str "MultiPolygon"),
      ("coordinates", .arr (ps.map fun p => .arr (p.map encodeRing)))]
  | .collection gs => .obj [("type", .str "GeometryCollection"),
      ("geometries", .arr (Geom.encodeList gs))]
termination_by structural x => x

/-- The JSON values of a collection's children. -/
def Geom.encodeList : GeomList → List Json
  | .nil => []
  | .cons g gs => Geom.encode g :: Geom.encodeList gs
termination_by structural x => x

end

mutual

theorem validateGeometry_ok (cfg : VConfig) (g : Geom) (fi : Option ℕ) (fid : Json) :
    ∃ ws, validateGeometry cfg g.encode fi fid = .ok ws := by
  cases g with
  | point c =>
      obtain ⟨ws0, hws0⟩ := validateCoordinate_encodeCoord_ok cfg c fi fid
      simp only [Geom.encode, validateGeometry, jLookupD, jLookup, String.reduceEq,
        reduceIte, Option.getD_some]
      rw [if_neg (by simp)]
      simp only [validateGeometryNonRec, Json.str.injEq, String.reduceEq, reduceIte,
        jLookupD, jLookup, Option.getD_some, hws0, except_bind_ok]
      split_ifs <;> exact ⟨_, rfl⟩
  | multiPoint cs =>
      obtain ⟨wss, hwss⟩ :=
        mapM_exists_ok (f := fun x => validateCoordinate cfg x fi fid) (cs.map encodeCoord)
          (by
            intro a ha
            obtain ⟨qs, hqs, rfl⟩ := List.mem_map.mp ha
            exact validateCoordinate_encodeCoord_ok cfg qs fi fid)
      simp only [Geom.encode, validateGeometry, jLookupD, jLookup, String.reduceEq,
        reduceIte, Option.getD_some]
      rw [if_neg (by simp)]
      simp only [validateGeometryNonRec, Json.str.injEq, String.reduceEq, reduceIte,
        jLookupD, jLookup, Option.getD_some, pyIter, except_bind_ok, hwss,
        except_pure_eq]
      split_ifs <;> exact ⟨_, rfl⟩
  | lineString cs =>
      obtain ⟨ws0, hws0⟩ := validateLineString_arr_ok cfg cs fi fid
      simp only [Geom.encode, validateGeometry, jLookupD, jLookup, String.reduceEq,
        reduceIte, Option.getD_some]
      rw [if_neg (by simp)]
      simp only [validateGeometryNonRec, Json.str.injEq, String.reduceEq, reduceIte,
        jLookupD, jLookup, Option.getD_some, hws0, except_bind_ok]
      split_ifs <;> exact ⟨_, rfl⟩
  | multiLineString ls =>
      obtain ⟨wss, hwss⟩ :=
        mapM_exists_ok (f := fun l => validateLineString cfg l fi fid)
          (ls.map fun l => .arr (l.map encodeCoord))
          (by
            intro a ha
            obtain ⟨l, hl, rfl⟩ := List.mem_map.mp ha
            exact validateLineString_arr_ok cfg l fi fid)
      simp only [Geom.encode, validateGeometry, jLookupD, jLookup, String.reduceEq,
        reduceIte, Option.getD_some]
      rw [if_neg (by simp)]
      simp only [validateGeometryNonRec, Json.str.injEq, String.reduceEq, reduceIte,
        jLookupD, jLookup, Option.getD_some, pyIter, except_bind_ok, hwss,
        except_pure_eq]
      split_ifs <;> exact ⟨_, rfl⟩
  | polygon rs =>
      obtain ⟨ws0, hws0⟩ := validatePolygon_arr_ok cfg rs fi fid
      simp only [Geom.encode, validateGeometry, jLookupD, jLookup, String.reduceEq,
        reduceIte, Option.getD_some]
      rw [if_neg (by simp)]
      simp only [validateGeometryNonRec, Json.str.injEq, String.reduceEq, reduceIte,
        jLookupD, jLookup, Option.getD_some, hws0, except_bind_ok]
      split_ifs <;> exact ⟨_, rfl⟩
  | multiPolygon ps =>
      obtain ⟨wss, hwss⟩ :=
        mapM_exists_ok (f := fun p => validatePolygon cfg p fi fid)
          (ps.map fun p => .arr (p.map encodeRing))
          (by
            intro a ha
            obtain ⟨p, hp, rfl⟩ := List.mem_map.mp ha
            exact validatePolygon_arr_ok cfg p fi fid)
      simp only [Geom.encode, validateGeometry, jLookupD, jLookup, String.reduceEq,
        reduceIte, Option.getD_some]
      rw [if_neg (by simp)]
      simp only [validateGeometryNonRec, Json.str.injEq, String.reduceEq, reduceIte,
        jLookupD, jLookup, Option.getD_some, pyIter, except_bind_ok, hwss,
        except_pure_eq]
      split_ifs <;> exact ⟨_, rfl⟩
  | collection gs =>
      obtain ⟨ws0, hws0⟩ := validateGeomList_ok cfg gs fi fid
      simp only [Geom.encode, validateGeometry, jLookupD, jLookup, String.reduceEq,
        reduceIte, Option.getD_some]
      simp only [validateGeomsEntry, String.reduceEq, reduceIte, validateGeomsVal,
        hws0, except_bind_ok]
      split_ifs <;> exact ⟨_, rfl⟩
termination_by sizeOf g

theorem validateGeomList_ok (cfg : VConfig) (gs : GeomList) (fi : Option ℕ) (fid : Json) :
    ∃ ws, validateGeomList cfg (Geom.encodeList gs) fi fid = .ok ws := by
  cases gs with
  | nil => exact ⟨[], rfl⟩
  | cons g gs =>
      obtain ⟨w1, hw1⟩ := validateGeometry_ok cfg g fi fid
      obtain ⟨w2, hw2⟩ := validateGeomList_ok cfg gs fi fid
      refine ⟨w1 ++ w2, ?_⟩
      simp only [Geom.encodeList, validateGeomList, hw1, hw2, except_bind_ok,
        except_pure_eq]
termination_by sizeOf gs

end

/-- A well-typed feature: tag `Feature`, a typed geometry (or JSON null),
and empty (non-null) properties. -/
def encodeFeature (g : Option Geom) : Json :=
  .obj [("type", .str "Feature"),
        ("geometry", match g with | some geo => geo.encode | none => .null),
        ("properties", .obj [])]

theorem Geom.encode_ne_null (g : Geom) : Geom.encode g ≠ Json.null := by
  cases g <;> simp [Geom.encode]

theorem validateFeature_ok (cfg : VConfig) (g : Option Geom) (i : ℕ) :
    ∃ ws, validateFeature cfg (encodeFeature g) i = .ok ws := by
  cases g with
  | none => exact ⟨_, rfl⟩
  | some geo =>
      obtain ⟨gws, hgws⟩ := validateGeometry_ok cfg geo (some i) .null
      simp only [validateFeature, encodeFeature, pyGet, jLookupD, jLookup,
        String.reduceEq, reduceIte, Option.getD_some, Option.getD_none,
        except_bind_ok, pyEq_str, decide_True, Bool.not_true, Bool.false_eq_true,
        if_false, if_neg (Geom.encode_ne_null geo), hgws, except_pure_eq]
      exact ⟨_, rfl⟩

theorem fcLoop_ok (cfg : VConfig) :
    ∀ (fs : List (Option Geom)) (i : ℕ) (ws : List ValidationWarning) (t v : ℕ),
      ∃ out, fcLoop cfg (fs.map encodeFeature) i ws t v = .ok out := by
  intro fs
  induction fs with
  | nil => intro i ws t v; exact ⟨_, rfl⟩
  | cons f fs ih =>
      intro i ws t v
      rw [List.map_cons, fcLoop]
      by_cases hcut : (ws.length : ℤ) ≥ cfg.max_warnings
      · rw [if_pos hcut]; exact ⟨_, rfl⟩
      · rw [if_neg hcut]
        obtain ⟨fws, hfws⟩ := validateFeature_ok cfg f i
        obtain ⟨out, hout⟩ := ih (i + 1) (ws ++ fws) (t + 1)
          (if featureOk fws then v + 1 else v)
        exact ⟨out, by rw [hfws, except_bind_ok, hout]⟩

/-- Well-typed GeoJSON root values: a FeatureCollection of well-typed
features, a single feature, or a bare geometry. -/
inductive WfGeoJson where
  | featureCollection (fs : List (Option Geom)) : WfGeoJson
  | feature (g : Option Geom) : WfGeoJson
  | geometry (g : Geom) : WfGeoJson

/-- The JSON value of a well-typed GeoJSON root. -/
def WfGeoJson.encode : WfGeoJson → Json
  | .featureCollection fs => .obj [("type", .str "FeatureCollection"),
      ("features", .arr (fs.map encodeFeature))]
  | .feature g => encodeFeature g
  | .geometry g => g.encode

/-- **C5 (counterexample).** `validate` is not exception-free on arbitrary
JSON-like input: on a bare number, `geojson.get("type")` raises
`AttributeError` (an `int` has no `get`), so no `ValidationResult` is
returned. -/
theorem validate_raises_attributeError :
    validate {} (.num 42) =
      .error (.attributeError "object has no attribute get: type") := rfl

/-- **C5 (amended).** On every well-typed GeoJSON value — a
FeatureCollection of well-typed features, a single feature (possibly with
null geometry), or a bare typed geometry — and under every configuration,
`validate` raises no exception: it always returns a `ValidationResult`. -/
theorem validate_total_on_wf (cfg : VConfig) (x : WfGeoJson) :
    ∃ res, validate cfg (WfGeoJson.encode x) = .ok res := by
  cases x with
  | featureCollection fs =>
      obtain ⟨⟨ws, t, v⟩, hout⟩ := fcLoop_ok cfg fs 0 [] 0 0
      simp only [WfGeoJson.encode, validate, validateDispatch, pyGet, pyGetD,
        jLookupD, jLookup, String.reduceEq, reduceIte, Option.getD_some,
        except_bind_ok, pyEq_str, decide_True, if_true, pyIter, hout,
        except_pure_eq]
      exact ⟨_, rfl⟩
  | feature g =>
      obtain ⟨fws, hfws⟩ := validateFeature_ok cfg g 0
      simp only [encodeFeature] at hfws
      simp only [WfGeoJson.encode, validate, validateDispatch, encodeFeature, pyGet,
        jLookupD, jLookup, String.reduceEq, reduceIte, Option.getD_some,
        except_bind_ok, pyEq_str, decide_False, decide_True, Bool.false_eq_true,
        if_false, if_true, hfws, except_pure_eq]
      exact ⟨_, rfl⟩
  | geometry g =>
      obtain ⟨gws, hgws⟩ := validateGeometry_ok cfg g (some 0) .null
      cases g <;>
        simp only [Geom.encode] at hgws <;>
        simp only [WfGeoJson.encode, Geom.encode, validate, validateDispatch, pyGet,
          jLookupD, jLookup, String.reduceEq, reduceIte, Option.getD_some,
          except_bind_ok, pyEq_str, decide_False, decide_True, Bool.false_eq_true,
          if_false, if_true, geometryTypeNames, List.any_cons, List.any_nil,
          Bool.or_false, Bool.false_or, hgws, except_pure_eq] <;>
        exact ⟨_, rfl⟩

end MTU
